import Mathlib

/-!
# BitFlow trading bot core: shallow embedding and verification

This file embeds the core computations of the BitFlow trading bot
(`src/ml-risk-manager.js`, `src/strategy.js`, and the live trading loop of
the main `BitFlowBot` orchestrator) as executable Lean definitions over `ℚ`,
and proves or refutes the specification claims about them.

Conventions of the embedding:
* JavaScript numbers are modelled as exact rationals (`ℚ`).  Formatting-only
  operations (`toFixed`, string interpolation of numbers into log messages)
  are dropped: the embedded results carry the exact values that the source
  formats for display.
* `Math.sqrt` has no counterpart in `ℚ`.  The only places the source takes a
  square root are `calculateVolatility` (standard deviation of returns) and
  the Sharpe ratio.  The Sharpe ratio is computed by the source but never
  consumed by any scoring or decision (the composite-score weights touch only
  `winRate`, `profitFactor` and `maxDrawdown`), so it is omitted from the
  embedded performance record.  For volatility, the embedding provides the
  variance (`calculateVolatilitySq`, the value whose square root the source
  returns), and every consumer of a volatility value takes that (nonnegative)
  value as an explicit argument, exactly as the callers pass it around.
* JavaScript `null` returns become `Option.none`; thrown-and-caught errors
  that a function converts to a sentinel return value are embedded as that
  sentinel directly.
-/

/-- The seven moving-average types iterated by the optimizer
(`this.maTypes` in `strategy.js`). -/
inductive MAType
  | SMA | EMA | WMA | DEMA | TEMA | HMA | VWAP
  deriving DecidableEq, Repr

/-- The timeframes the bot can be configured with (`'1m' | '5m' | '15m'`). -/
inductive Timeframe
  | m1 | m5 | m15
  deriving DecidableEq, Repr

/-- An OHLC bar as consumed by the risk manager: only `high`, `low` and
`close` are read by the embedded code paths. -/
structure Bar where
  high : ℚ
  low : ℚ
  close : ℚ
  deriving DecidableEq, Repr

/-- JavaScript `x || y` on numbers: `y` when `x` is falsy (here: zero). -/
def jsOr (x y : ℚ) : ℚ := if x = 0 then y else x

/-- JavaScript `Math.round`: round half toward positive infinity. -/
def jsRound (x : ℚ) : ℚ := ((⌊x + 1 / 2⌋ : ℤ) : ℚ)

/-- `l.slice(-n)` on arrays: the last `n` elements (the whole list when it is
shorter, including the JavaScript `slice(-0)` = whole-array corner). -/
def takeLast (n : Nat) (l : List ℚ) : List ℚ := l.drop (l.length - n)

deriving instance DecidableEq for Except

namespace MLRiskManager

/-- `this.volatilityWindow` (bars to analyze). -/
def volatilityWindow : Nat := 50

/-- `this.atrMultiplier` (ATR-based stop loss). -/
def atrMultiplier : ℚ := 1.5

/-- `this.riskRewardRatio` (default R:R base). -/
def riskRewardRatioBase : ℚ := 2.0

/-- `this.maxStopLossPercent` (max 0.5% stop loss). -/
def maxStopLossPercent : ℚ := 0.5

/-- `this.maxTakeProfitPercent` (max 0.5% take profit). -/
def maxTakeProfitPercent : ℚ := 0.5

/-- `this.minStopLossPercent` (min 0.2% stop loss). -/
def minStopLossPercent : ℚ := 0.2

/-- `this.minTakeProfitPercent` (min 0.3% take profit). -/
def minTakeProfitPercent : ℚ := 0.3

/-- `this.maxPositionPercent` (max 10% of buying power per trade). -/
def maxPositionPercent : ℚ := 10

/-- `this.minPositionSize` (minimum crypto position). -/
def minPositionSize : ℚ := 0.001

/-- One entry of the tiered Alpaca crypto fee schedule. -/
structure FeeTier where
  volume : ℚ
  maker : ℚ
  taker : ℚ
  deriving DecidableEq, Repr

/-- `this.feeTiers`: tiered fees keyed by 30-day trading volume. -/
def feeTiers : List FeeTier :=
  [⟨0, 0.0015, 0.0025⟩,
   ⟨100000, 0.0012, 0.0022⟩,
   ⟨500000, 0.0010, 0.0020⟩,
   ⟨1000000, 0.0008, 0.0018⟩,
   ⟨10000000, 0.0005, 0.0015⟩,
   ⟨25000000, 0.0002, 0.0013⟩,
   ⟨50000000, 0.0002, 0.0012⟩,
   ⟨100000000, 0.0000, 0.0010⟩]

/-- `getFeeRate(volume30Day, isMaker)`: scan the tiers from the highest down
and take the first whose threshold the volume reaches; default tier 1. -/
def getFeeRate (volume30Day : ℚ) (isMaker : Bool) : ℚ :=
  let tier := (feeTiers.reverse.find? fun t => decide (t.volume ≤ volume30Day)).getD
    ⟨0, 0.0015, 0.0025⟩
  if isMaker then tier.maker else tier.taker

/-- Fee breakdown returned by `calculateTradeFees`. -/
structure TradeFees where
  buyFee : ℚ
  buyFeeCost : ℚ
  sellFee : ℚ
  totalFees : ℚ
  feePercent : ℚ
  buyFeeRate : ℚ
  sellFeeRate : ℚ
  deriving DecidableEq, Repr

/-- `calculateTradeFees(positionSize, entryPrice, exitPrice, volume30Day)`:
round-trip taker fees, buy side charged in the base asset (valued at entry),
sell side charged on the exit proceeds. -/
def calculateTradeFees (positionSize entryPrice exitPrice volume30Day : ℚ) : TradeFees :=
  let buyFeeRate := getFeeRate volume30Day false
  let sellFeeRate := getFeeRate volume30Day false
  let buyFee := positionSize * buyFeeRate
  let buyFeeCost := buyFee * entryPrice
  let sellValue := positionSize * exitPrice
  let sellFee := sellValue * sellFeeRate
  let totalFees := buyFeeCost + sellFee
  let positionValue := positionSize * entryPrice
  let feePercent := totalFees / positionValue * 100
  ⟨buyFee, buyFeeCost, sellFee, totalFees, feePercent, buyFeeRate, sellFeeRate⟩

/-- True range of a bar given the previous bar, with the source's
`high || close` / `low || close` falsy fallbacks. -/
def trueRange (prev cur : Bar) : ℚ :=
  let high := jsOr cur.high cur.close
  let low := jsOr cur.low cur.close
  max (high - low) (max |high - prev.close| |low - prev.close|)

/-- `calculateATR(priceData, period)`: `null` when fewer than `period + 1`
bars are available, otherwise the mean of the last `period` true ranges. -/
def calculateATR (priceData : List Bar) (period : Nat) : Option ℚ :=
  if priceData.length < period + 1 then none
  else
    let trueRanges := List.zipWith trueRange priceData priceData.tail
    let recentTR := takeLast period trueRanges
    some (recentTR.sum / (period : ℚ))

/-- Embeds `calculateVolatility` up to its final `Math.sqrt`: this is the
variance of simple returns whose square root the source returns.  (On fewer
than two bars the source produces `NaN` from a `0/0`; in `ℚ` that corner
evaluates to `0`.  No embedded call site hits it.) -/
def calculateVolatilitySq (priceData : List Bar) : ℚ :=
  let returns := List.zipWith (fun prev cur => (cur.close - prev.close) / prev.close)
    priceData priceData.tail
  let mean := returns.sum / (returns.length : ℚ)
  (returns.map fun r => (r - mean) ^ 2).sum / (returns.length : ℚ)

/-- `calculateTrend(priceData)`: OLS slope of index vs close, normalized by
the mean price and clamped to `[-1, 1]`. -/
def calculateTrend (priceData : List Bar) : ℚ :=
  let prices := priceData.map (·.close)
  let n : ℚ := (prices.length : ℚ)
  let idx := (List.range prices.length).map fun i => ((i : ℚ))
  let sumX := idx.sum
  let sumY := prices.sum
  let sumXY := (List.zipWith (· * ·) idx prices).sum
  let sumX2 := (idx.map fun x => x * x).sum
  let slope := (n * sumXY - sumX * sumY) / (n * sumX2 - sumX * sumX)
  let avgPrice := sumY / n
  max (-1) (min 1 (slope / avgPrice * 100))

/-- `calculateSimpleMA(prices, length)`: SMA series aligned with the input,
`null` for the first `length - 1` slots. -/
def calculateSimpleMA (prices : List ℚ) (length : Nat) : List (Option ℚ) :=
  (List.range prices.length).map fun i =>
    if i + 1 < length then none
    else some ((((prices.drop (i + 1 - length)).take length).sum) / (length : ℚ))

/-- `calculateConfidence(volatility, trend, maDistance)`: weighted blend of
volatility closeness to 2%, trend magnitude, and inverted MA distance,
clamped to `[0, 1]`. -/
def calculateConfidence (volatility trend maDistance : ℚ) : ℚ :=
  let volScore := 1 - |volatility - 0.02| / 0.05
  let trendScore := |trend|
  let maScore := 1 - min (maDistance / 0.05) 1
  max 0 (min 1 (volScore * 0.3 + trendScore * 0.4 + maScore * 0.3))

/-- The numeric payload of the `'ml-atr-fees'` result branch of
`calculateOptimalTPSL`.  The nested `fees`/`metrics` reporting blocks of the
source object are `toFixed`-formatted strings for display and are omitted. -/
structure TPSLData where
  stopLoss : ℚ
  takeProfit : ℚ
  stopLossPercent : ℚ
  takeProfitPercent : ℚ
  netRiskReward : ℚ
  confidence : ℚ
  deriving DecidableEq, Repr

/-- Result of `calculateOptimalTPSL`: either the fixed-percentage fallback
object (`method: 'fallback'`) or the full ML/ATR result
(`method: 'ml-atr-fees'`). -/
inductive TPSLResult
  | fallback (stopLoss takeProfit confidence : ℚ)
  | mlAtrFees (data : TPSLData)
  deriving DecidableEq, Repr

/-- `result.stopLoss` of either branch. -/
def TPSLResult.stopLossOf : TPSLResult → ℚ
  | .fallback sl _ _ => sl
  | .mlAtrFees d => d.stopLoss

/-- `result.takeProfit` of either branch. -/
def TPSLResult.takeProfitOf : TPSLResult → ℚ
  | .fallback _ tp _ => tp
  | .mlAtrFees d => d.takeProfit

/-- The safety clamp applied to the raw stop-loss percentage
(`Math.max(this.minStopLossPercent, Math.min(this.maxStopLossPercent, ...))`). -/
def slPercentClamped (x : ℚ) : ℚ := max minStopLossPercent (min maxStopLossPercent x)

/-- The safety clamp applied to the raw take-profit percentage. -/
def tpPercentClamped (x : ℚ) : ℚ := max minTakeProfitPercent (min maxTakeProfitPercent x)

/-- The timeframe adjustment of the take-profit percentage
(`1m`: `min(max*1.3, x*1.3)`, `5m`: `min(max*1.1, x*1.1)`, `15m`: as is). -/
def tpPercentTimeframe (timeframe : Timeframe) (x : ℚ) : ℚ :=
  match timeframe with
  | .m1 => min (maxTakeProfitPercent * 1.3) (x * 1.3)
  | .m5 => min (maxTakeProfitPercent * 1.1) (x * 1.1)
  | .m15 => x

/-- The timeframe adjustment of the stop-loss percentage
(`1m`: `min(max*1.2, x*1.2)`, others: as is). -/
def slPercentTimeframe (timeframe : Timeframe) (x : ℚ) : ℚ :=
  match timeframe with
  | .m1 => min (maxStopLossPercent * 1.2) (x * 1.2)
  | _ => x

/-- The main (`'ml-atr-fees'`) branch of `calculateOptimalTPSL`, given the
already computed (non-null, nonzero) ATR: source lines 142-242 of
`ml-risk-manager.js`. -/
def calculateOptimalTPSLCore (priceData : List Bar) (currentPrice : ℚ)
    (maLength : Nat) (positionSize volume30Day : ℚ) (timeframe : Timeframe)
    (volatility atr : ℚ) : TPSLData :=
      let recentData := priceData.drop (priceData.length - volatilityWindow)
      let trend := calculateTrend recentData
      let maValues := calculateSimpleMA (recentData.map (·.close)) maLength
      let currentMA := (maValues.getLastD none).getD 0
      let maDistance := |(currentPrice - currentMA) / currentMA|
      let volatilityFactor := max 0.5 (min 2.0 (volatility / 0.02))
      let stopLossDistance0 := atr * atrMultiplier * volatilityFactor
      let stopLossPercent0 := stopLossDistance0 / currentPrice * 100
      let stopLossPercent1 := slPercentClamped stopLossPercent0
      let stopLossDistance1 := currentPrice * (stopLossPercent1 / 100)
      let trendFactor := |trend|
      let dynamicRR := riskRewardRatioBase * (1 + trendFactor * 0.5)
      let takeProfitDistance0 := stopLossDistance1 * dynamicRR
      let takeProfitPercent0 := takeProfitDistance0 / currentPrice * 100
      let takeProfitPercent1 := tpPercentClamped takeProfitPercent0
      let takeProfitPercent2 := tpPercentTimeframe timeframe takeProfitPercent1
      let stopLossPercent2 := slPercentTimeframe timeframe stopLossPercent1
      let takeProfit0 := currentPrice * (1 + takeProfitPercent2 / 100)
      let stopLoss := currentPrice * (1 - stopLossPercent2 / 100)
      let tpFees := calculateTradeFees positionSize currentPrice takeProfit0 volume30Day
      let slFees := calculateTradeFees positionSize currentPrice stopLoss volume30Day
      let feeAdjustment := tpFees.totalFees / positionSize
      let takeProfit1 := takeProfit0 + feeAdjustment
      let takeProfitPercent3 := (takeProfit1 - currentPrice) / currentPrice * 100
      let takeProfitPercentF :=
        if takeProfitPercent3 > maxTakeProfitPercent then maxTakeProfitPercent
        else takeProfitPercent3
      let takeProfitF :=
        if takeProfitPercent3 > maxTakeProfitPercent then
          currentPrice * (1 + maxTakeProfitPercent / 100)
        else takeProfit1
      let confidence := calculateConfidence volatility trend maDistance
      let tpNetProfit := (takeProfitF - currentPrice) * positionSize - tpFees.totalFees
      let slNetLoss := (currentPrice - stopLoss) * positionSize + slFees.totalFees
      let netRiskReward := tpNetProfit / slNetLoss
      ⟨stopLoss, takeProfitF, stopLossPercent2, takeProfitPercentF,
        netRiskReward, confidence⟩

/-- `calculateOptimalTPSL(priceData, currentPrice, maType, maLength,
positionSize, volume30Day, timeframe)`.  The JavaScript defaults are
`positionSize = 0.001`, `volume30Day = 0`, `timeframe = '5m'`; callers in
this file always pass them explicitly.  `volatility` is the value of
`this.calculateVolatility(recentData)` (the square root of
`calculateVolatilitySq recentData`), taken as an explicit argument because
`ℚ` has no square root; it only enters through clamped factors and the
confidence blend.  The `!atr` falsy test of the source sends both the
`null` ATR and a zero ATR to the fallback branch. -/
def calculateOptimalTPSL (priceData : List Bar) (currentPrice : ℚ) (maType : MAType)
    (maLength : Nat) (positionSize volume30Day : ℚ) (timeframe : Timeframe)
    (volatility : ℚ) : TPSLResult :=
  match calculateATR priceData 14 with
  | none => .fallback (currentPrice * 0.985) (currentPrice * 1.03) 0.5
  | some atr =>
    if atr = 0 then .fallback (currentPrice * 0.985) (currentPrice * 1.03) 0.5
    else
      .mlAtrFees (calculateOptimalTPSLCore priceData currentPrice maLength positionSize
        volume30Day timeframe volatility atr)

/-- The `accountInfo` fields read by `calculatePositionSize`. -/
structure AccountInfo where
  equity : ℚ
  buyingPower : ℚ
  deriving DecidableEq, Repr

/-- Timeframe-based multiplier for position size (larger for shorter
timeframes), the `switch (timeframe)` of `calculatePositionSize`. -/
def positionTimeframeMultiplier : Timeframe → ℚ
  | .m1 => 1.5
  | .m5 => 1.0
  | .m15 => 0.7

/-- Result of `calculatePositionSize`; `totalFees` is the recomputed final
fee figure (`finalFees.totalFees`), the rest of the `fees` reporting block
is formatted strings and is omitted. -/
structure SizeResult where
  size : ℚ
  riskAmount : ℚ
  actualRisk : ℚ
  actualRiskPercent : ℚ
  volatilityAdjustment : ℚ
  timeframeMultiplier : ℚ
  maxAllowed : ℚ
  totalFees : ℚ
  deriving DecidableEq, Repr

/-- `calculatePositionSize(accountInfo, riskPercent, entryPrice, stopLoss,
volatility, volume30Day, timeframe)`.  JavaScript defaults are
`volume30Day = 0`, `timeframe = '5m'`.  Note the fee adjustment: the source
replaces the size by `(riskAmount - fees) / stopDistance` only when that
adjusted risk amount is strictly positive, and otherwise keeps the
fee-unadjusted size. -/
def calculatePositionSize (accountInfo : AccountInfo)
    (riskPercent entryPrice stopLoss volatility volume30Day : ℚ)
    (timeframe : Timeframe) : SizeResult :=
  let availableCapital := accountInfo.buyingPower
  let riskAmount0 := accountInfo.equity * (riskPercent / 100)
  let volatilityAdjustment := max 0.5 (min 1.5 (1 / (volatility * 50)))
  let riskAmount1 := riskAmount0 * volatilityAdjustment
  let timeframeMultiplier := positionTimeframeMultiplier timeframe
  let riskAmount := riskAmount1 * timeframeMultiplier
  let stopDistance := |entryPrice - stopLoss|
  let positionSize0 := riskAmount / stopDistance
  let fees := calculateTradeFees positionSize0 entryPrice stopLoss volume30Day
  let adjustedRiskAmount := riskAmount - fees.totalFees
  let positionSize1 :=
    if 0 < adjustedRiskAmount then adjustedRiskAmount / stopDistance else positionSize0
  let maxSize := min (availableCapital * (maxPositionPercent / 100) / entryPrice)
    (accountInfo.equity * 0.15 / entryPrice)
  let positionSize2 := max minPositionSize (min maxSize positionSize1)
  let finalFees := calculateTradeFees positionSize2 entryPrice stopLoss volume30Day
  let actualRisk := stopDistance * positionSize2 + finalFees.totalFees
  let actualRiskPercent := actualRisk / accountInfo.equity * 100
  ⟨positionSize2, riskAmount, actualRisk, actualRiskPercent, volatilityAdjustment,
    timeframeMultiplier, maxSize, finalFees.totalFees⟩

end MLRiskManager

namespace StrategyOptimizer

/-- Models `SMA.calculate({period, values})` of the external
`technicalindicators` npm dependency: the window means, `values.length -
period + 1` outputs, empty when the period does not fit. -/
def smaCalculate (period : Nat) (values : List ℚ) : List ℚ :=
  if period = 0 ∨ values.length < period then []
  else (List.range (values.length - period + 1)).map fun i =>
    (((values.drop i).take period).sum) / (period : ℚ)

/-- Tail of the EMA recurrence `e := (v - e) * k + e`. -/
def emaStep (k : ℚ) : ℚ → List ℚ → List ℚ
  | _, [] => []
  | e, v :: vs => ((v - e) * k + e) :: emaStep k ((v - e) * k + e) vs

/-- Models `EMA.calculate({period, values})` of `technicalindicators`:
seeded with the SMA of the first `period` values, smoothing factor
`2 / (period + 1)`, `values.length - period + 1` outputs. -/
def emaCalculate (period : Nat) (values : List ℚ) : List ℚ :=
  if period = 0 ∨ values.length < period then []
  else
    let seed := ((values.take period).sum) / (period : ℚ)
    seed :: emaStep (2 / ((period : ℚ) + 1)) seed (values.drop period)

/-- Models `WMA.calculate({period, values})` of `technicalindicators`:
linearly weighted window means with the newest value weighted `period`. -/
def wmaCalculate (period : Nat) (values : List ℚ) : List ℚ :=
  if period = 0 ∨ values.length < period then []
  else
    let weights := (List.range period).map fun j => ((j : ℚ) + 1)
    (List.range (values.length - period + 1)).map fun i =>
      (List.zipWith (· * ·) weights ((values.drop i).take period)).sum / weights.sum

/-- `calculateMA(prices, type, length)`: validation, positive-price
filtering, the seven MA branches, and the `null` returns of the source's
catch-all error handling.  The source's final NaN filter can only remove
values produced by the `slice(-0)` / out-of-range-index corners of the
DEMA/TEMA/HMA combinations; the `List.zipWith` truncation used here yields
the same surviving values, and an all-filtered (empty) result and a `null`
result are interchangeable at every call site of the repository. -/
def calculateMA (prices : List ℚ) (type : MAType) (length : Nat) : Option (List ℚ) :=
  if prices.length = 0 then none
  else if length = 0 ∨ prices.length < length then none
  else
    let validPrices := prices.filter fun p => decide (0 < p)
    if validPrices.length < length then none
    else
      let result : List ℚ :=
        match type with
        | .SMA => smaCalculate length validPrices
        | .EMA => emaCalculate length validPrices
        | .WMA => wmaCalculate length validPrices
        | .DEMA =>
          let ema1 := emaCalculate length validPrices
          let ema2 := emaCalculate length ema1
          List.zipWith (fun e1 e2 => 2 * e1 - e2) (takeLast ema2.length ema1) ema2
        | .TEMA =>
          let tema1 := emaCalculate length validPrices
          let tema2 := emaCalculate length tema1
          let tema3 := emaCalculate length tema2
          List.zipWith (fun e1 p => 3 * e1 - 3 * p.1 + p.2)
            (takeLast tema3.length tema1) ((takeLast tema3.length tema2).zip tema3)
        | .HMA =>
          let halfLength := length / 2
          let sqrtLength := Nat.sqrt length
          let wma1 := wmaCalculate halfLength validPrices
          let wma2 := wmaCalculate length validPrices
          let diff := List.zipWith (fun w1 w2 => 2 * w1 - w2) (takeLast wma2.length wma1) wma2
          wmaCalculate sqrtLength diff
        | .VWAP =>
          (List.range (validPrices.length + 1 - length)).map fun i =>
            let slice := (validPrices.drop i).take length
            (List.zipWith (fun p w => p * w) slice ((List.range length).map fun j => ((j : ℚ) + 1))).sum /
              (((List.range length).map fun j => ((j : ℚ) + 1)).sum)
      if result.length = 0 then none else some result

/-- `scoreMA(prices, maValues, length, evaluationPeriod)`: sum of the price
deltas captured at each crossover among the last `evaluationPeriod` MA
points, normalized by the MA length. -/
def scoreMA (prices maValues : List ℚ) (length : Nat) (evaluationPeriod : Nat) : ℚ :=
  if maValues.length < evaluationPeriod then 0
  else
    let startIdx := maValues.length - evaluationPeriod
    ((List.range' (startIdx + 1) (maValues.length - (startIdx + 1))).map fun (i : Nat) =>
      let priceIdx : ℤ := (prices.length : ℤ) - (maValues.length : ℤ) + (i : ℤ)
      if 0 < priceIdx ∧ priceIdx < (prices.length : ℤ) then
        let prevPrice := prices.getD (priceIdx - 1).toNat 0
        let currentPrice := prices.getD priceIdx.toNat 0
        let prevMA := maValues.getD (i - 1) 0
        let currentMA := maValues.getD i 0
        if prevPrice ≤ prevMA ∧ currentMA < currentPrice then
          (currentPrice - prevPrice) / (length : ℚ)
        else if prevMA ≤ prevPrice ∧ currentPrice < currentMA then
          (prevPrice - currentPrice) / (length : ℚ)
        else 0
      else 0).sum

/-- `calculateRSquared(prices, maValues, length)`: coefficient of
determination of the MA as a fit of the price slice, `0` when the total sum
of squares vanishes or the lengths disagree. -/
def calculateRSquared (prices maValues : List ℚ) (length : Nat) : ℚ :=
  if prices.length ≠ maValues.length then 0
  else
    let n := min prices.length length
    let priceSlice := takeLast n prices
    let maSlice := takeLast n maValues
    let priceMean := priceSlice.sum / (n : ℚ)
    let ssRes := (List.zipWith (fun p m => (p - m) ^ 2) priceSlice maSlice).sum
    let ssTot := (priceSlice.map fun p => (p - priceMean) ^ 2).sum
    if ssTot = 0 then 0 else 1 - ssRes / ssTot

/-- The trade simulation of `evaluatePerformance`: enter long when price
crosses above the MA, exit when it crosses below; returns the per-trade
profits in order. -/
def simulateTrades (prices maValues : List ℚ) : List ℚ :=
  let out := (List.range' 1 (maValues.length - 1)).foldl
    (fun (acc : Bool × ℚ × List ℚ) (i : Nat) =>
      let inPosition := acc.1
      let entryPrice := acc.2.1
      let trades := acc.2.2
      let priceIdx : ℤ := (prices.length : ℤ) - (maValues.length : ℤ) + (i : ℤ)
      if 0 < priceIdx ∧ priceIdx < (prices.length : ℤ) then
        let prevPrice := prices.getD (priceIdx - 1).toNat 0
        let currentPrice := prices.getD priceIdx.toNat 0
        let prevMA := maValues.getD (i - 1) 0
        let currentMA := maValues.getD i 0
        if inPosition = false ∧ prevPrice ≤ prevMA ∧ currentMA < currentPrice then
          (true, currentPrice, trades)
        else if inPosition = true ∧ prevMA ≤ prevPrice ∧ currentPrice < currentMA then
          (false, entryPrice, trades ++ [currentPrice - entryPrice])
        else acc
      else acc)
    (false, 0, [])
  out.2.2

/-- The performance metrics of `evaluatePerformance`.  The source also
computes a `sharpeRatio` (which needs `Math.sqrt`), but no scoring or
decision in the repository ever reads it, so it is omitted here. -/
structure Performance where
  winRate : ℚ
  profitFactor : ℚ
  maxDrawdown : ℚ
  totalTrades : Nat
  wins : Nat
  losses : Nat
  deriving DecidableEq, Repr

/-- `evaluatePerformance(prices, maValues)`: win rate, profit factor (gross
win over gross loss, or gross win alone with no losses), and max drawdown of
cumulative trade P&L. -/
def evaluatePerformance (prices maValues : List ℚ) : Performance :=
  let trades := simulateTrades prices maValues
  let wins := (trades.filter fun t => decide (0 < t)).length
  let losses := (trades.filter fun t => decide (¬ 0 < t)).length
  let totalProfit := (trades.map fun t => if 0 < t then t else 0).sum
  let totalLoss := |(trades.map fun t => if 0 < t then 0 else t).sum|
  let mddState := trades.foldl
    (fun (acc : ℚ × ℚ × ℚ) t =>
      let runningTotal := acc.1 + t
      let peak := max acc.2.1 runningTotal
      (runningTotal, peak, max acc.2.2 (peak - runningTotal)))
    (0, 0, 0)
  { winRate := if 0 < trades.length then (wins : ℚ) / (trades.length : ℚ) else 0
    profitFactor := if 0 < totalLoss then totalProfit / totalLoss else totalProfit
    maxDrawdown := mddState.2.2
    totalTrades := trades.length
    wins := wins
    losses := losses }

/-- The timeframe-specific adjustment of `calculateCompositeScore`. -/
def timeframeScoreMultiplier : Timeframe → ℚ
  | .m1 => 0.9
  | .m5 => 1.0
  | .m15 => 0.95

/-- `calculateCompositeScore(crossoverScore, rSquared, performance,
timeframe)`: the weighted blend of the clamped sub-scores times the
timeframe multiplier. -/
def calculateCompositeScore (crossoverScore rSquared : ℚ) (performance : Performance)
    (timeframe : Timeframe) : ℚ :=
  let normalizedCrossover := max 0 (min 1 ((crossoverScore + 100) / 200))
  let normalizedRSquared := max 0 (min 1 rSquared)
  let normalizedWinRate := max 0 (min 1 performance.winRate)
  let normalizedProfitFactor := max 0 (min 1 (performance.profitFactor / 1000))
  let normalizedDrawdown := max 0 (min 1 (1 - performance.maxDrawdown / 1000))
  let compositeScore :=
    0.4 * normalizedCrossover + 0.2 * normalizedRSquared + 0.2 * normalizedWinRate +
      0.1 * normalizedProfitFactor + 0.1 * normalizedDrawdown
  compositeScore * timeframeScoreMultiplier timeframe

/-- One scored candidate configuration (the `config` object pushed to
`results` by `optimizeMAParameters`). -/
structure MAConfigResult where
  type : MAType
  length : Nat
  score : ℚ
  crossoverScore : ℚ
  rSquared : ℚ
  performance : Performance
  timeframe : Timeframe
  deriving DecidableEq, Repr

/-- `this.maTypes`, in iteration order. -/
def maTypes : List MAType := [.SMA, .EMA, .WMA, .DEMA, .TEMA, .HMA, .VWAP]

/-- `this.lengthRange.min`. -/
def lengthRangeMin : Nat := 5

/-- `this.lengthRange.max`. -/
def lengthRangeMax : Nat := 30

/-- The MA-type-major, ascending-length iteration order of the optimizer's
nested loops. -/
def candidateCombos : List (MAType × Nat) :=
  maTypes.flatMap fun t =>
    (List.range' lengthRangeMin (lengthRangeMax - lengthRangeMin + 1)).map fun l => (t, l)

/-- The body of the optimizer's inner loop for one `(maType, length)`
combination: `none` when the configuration is skipped (invalid MA or at most
20 usable points), otherwise the scored candidate. -/
def scoreCandidate (prices : List ℚ) (timeframe : Timeframe) (maType : MAType)
    (length : Nat) : Option MAConfigResult :=
  match calculateMA prices maType length with
  | none => none
  | some maValues =>
    if 20 < maValues.length then
      let crossoverScore := scoreMA prices maValues length 20
      let rSquared := calculateRSquared (takeLast maValues.length prices) maValues maValues.length
      let performance := evaluatePerformance prices maValues
      some
        { type := maType
          length := length
          score := calculateCompositeScore crossoverScore rSquared performance timeframe
          crossoverScore := crossoverScore
          rSquared := rSquared
          performance := performance
          timeframe := timeframe }
    else none

/-- The running-best update of the optimizer loop
(`if (compositeScore > bestScore) { bestScore = ...; bestConfig = config }`,
starting from `bestScore = -Infinity`, which any real score beats). -/
def pickBest (acc : Option MAConfigResult) (c : MAConfigResult) : Option MAConfigResult :=
  match acc with
  | none => some c
  | some b => if b.score < c.score then some c else some b

/-- The value returned by a successful `optimizeMAParameters` run: the
winning configuration together with the `allResults` array attached to it. -/
structure OptimizeOutcome where
  best : MAConfigResult
  allResults : List MAConfigResult
  deriving DecidableEq, Repr

/-- `optimizeMAParameters(historicalData, timeframe)`: errors on fewer than
50 bars, scores every combination (skipping invalid ones), and returns the
first configuration attaining the maximal composite score, with all scored
candidates attached.  The progress callback only drives a CLI progress bar
and is omitted. -/
def optimizeMAParameters (historicalData : List Bar) (timeframe : Timeframe) :
    Except String OptimizeOutcome :=
  if historicalData.length < 50 then
    .error "Insufficient historical data for optimization"
  else
    let prices := historicalData.map (·.close)
    let results := candidateCombos.filterMap fun tl => scoreCandidate prices timeframe tl.1 tl.2
    match results.foldl pickBest none with
    | none => .error "No valid MA configuration found"
    | some bestConfig => .ok ⟨bestConfig, results⟩

end StrategyOptimizer

namespace StrategyOptimizer

/-- `'BUY' | 'SELL' | 'HOLD'`. -/
inductive SignalAction
  | BUY | SELL | HOLD
  deriving DecidableEq, Repr

/-- The crossover object built by `detectCrossover` when a crossover is
detected (`detected: true`).  The `reason` display string of the source
interpolates `toFixed(4)`-formatted prices and is carried here without the
numeric interpolation. -/
structure CrossoverInfo where
  direction : SignalAction
  bullish : Bool
  strength : ℚ
  reason : String
  priceChange : ℚ
  maChange : ℚ
  crossoverGap : ℚ
  deriving DecidableEq, Repr

/-- `calculateCrossoverStrength(prevPrice, currentPrice, prevMA, currentMA,
type)`: magnitude blend of price movement, MA movement and post-crossover
gap, clamped to `[0, 1]`. -/
def calculateCrossoverStrength (prevPrice currentPrice prevMA currentMA : ℚ)
    (bullish : Bool) : ℚ :=
  let priceMovement := |currentPrice - prevPrice| / prevPrice
  let maMovement := |currentMA - prevMA| / prevMA
  let gap :=
    if bullish then (currentPrice - currentMA) / currentMA
    else (currentMA - currentPrice) / currentMA
  max 0 (min 1 ((priceMovement * 2 + maMovement + gap * 0.5) / 3))

/-- `detectCrossover(prevPrice, currentPrice, prevMA, currentMA, ...)`:
bullish when `prevPrice <= prevMA && currentPrice > currentMA`, bearish when
`prevPrice >= prevMA && currentPrice < currentMA`, `none` otherwise. -/
def detectCrossover (prevPrice currentPrice prevMA currentMA : ℚ) : Option CrossoverInfo :=
  if prevPrice ≤ prevMA ∧ currentMA < currentPrice then
    some
      { direction := .BUY
        bullish := true
        strength := calculateCrossoverStrength prevPrice currentPrice prevMA currentMA true
        reason := "Bullish crossover: price crossed above MA"
        priceChange := currentPrice - prevPrice
        maChange := currentMA - prevMA
        crossoverGap := currentPrice - currentMA }
  else if prevMA ≤ prevPrice ∧ currentPrice < currentMA then
    some
      { direction := .SELL
        bullish := false
        strength := calculateCrossoverStrength prevPrice currentPrice prevMA currentMA false
        reason := "Bearish crossover: price crossed below MA"
        priceChange := currentPrice - prevPrice
        maChange := currentMA - prevMA
        crossoverGap := currentMA - currentPrice }
  else none

/-- `validateSignalStrength(baseConfidence, crossoverResult)`: scale the
confidence by the crossover strength and gap factors (both gated by the
source's truthiness tests, so a zero strength or gap leaves the confidence
unscaled), round, and clamp to `[0, 100]`. -/
def validateSignalStrength (baseConfidence : ℚ) (crossoverResult : CrossoverInfo) : ℚ :=
  let adjusted0 :=
    if crossoverResult.strength ≠ 0 then
      baseConfidence * (0.5 + crossoverResult.strength * 0.5)
    else baseConfidence
  let adjusted1 :=
    if crossoverResult.crossoverGap ≠ 0 then
      adjusted0 * (0.8 + min 1 (|crossoverResult.crossoverGap| / 100) * 0.2)
    else adjusted0
  max 0 (min 100 (jsRound adjusted1))

/-- `calculateSignalConfidence(prices, maValues)`: percentage of the last 10
aligned (price, MA) pairs with price above MA, rounded. -/
def calculateSignalConfidence (prices maValues : List ℚ) : ℚ :=
  if prices.length < 10 then 0
  else
    let recentPrices := takeLast 10 prices
    let recentMA := takeLast 10 maValues
    let alignment :=
      ((List.zipWith (fun p m => if m < p then (1 : Nat) else 0) recentPrices recentMA)).sum
    jsRound (min 100 (max 0 ((alignment : ℚ) / (recentPrices.length : ℚ) * 100)))

/-- `validatePriceData(values)`: every value is a positive finite number. -/
def validatePriceData (values : List ℚ) : Bool :=
  values.all fun v => decide (0 < v)

/-- The signal object returned by `calculateSignals`.  Display-only fields
of the source object (timestamps, trend label, echoed MA parameters) are
omitted. -/
structure Signal where
  action : SignalAction
  confidence : ℚ
  reason : String
  valid : Bool
  crossover : Option CrossoverInfo
  deriving DecidableEq, Repr

/-- The `HOLD` objects returned on the validation paths of
`calculateSignals`. -/
def holdSignal (reason : String) (valid : Bool) : Signal :=
  { action := .HOLD, confidence := 0, reason := reason, valid := valid, crossover := none }

/-- `calculateSignals(prices, maType, maLength)` on the `candleData = null`
path used by the live loop (with no candle data,
`validateCandleClose(null, p)` is `true` and the pending branch is dead). -/
def calculateSignals (prices : List ℚ) (maType : MAType) (maLength : Nat) : Signal :=
  if prices.length < maLength + 2 then
    holdSignal
      ("Insufficient data: " ++ toString prices.length ++ " < " ++ toString (maLength + 2))
      false
  else if maLength = 0 then holdSignal "Invalid MA parameters" false
  else
    match calculateMA prices maType maLength with
    | none => holdSignal "Invalid MA calculation" false
    | some maValues =>
      if maValues.length < 2 then holdSignal "Invalid MA calculation" false
      else
        let currentPrice := prices.getLastD 0
        let prevPrice := prices.getD (prices.length - 2) 0
        let currentMA := maValues.getLastD 0
        let prevMA := maValues.getD (maValues.length - 2) 0
        if validatePriceData [currentPrice, prevPrice, currentMA, prevMA] = false then
          holdSignal "Invalid price or MA values" false
        else
          match detectCrossover prevPrice currentPrice prevMA currentMA with
          | some crossoverResult =>
            let confidence := calculateSignalConfidence prices maValues
            { action := crossoverResult.direction
              confidence := validateSignalStrength confidence crossoverResult
              reason := crossoverResult.reason
              valid := true
              crossover := some crossoverResult }
          | none =>
            { action := .HOLD
              confidence := 0
              reason := "No crossover detected"
              valid := true
              crossover := none }

end StrategyOptimizer

namespace BitFlowBot

/-- The `'above' | 'below' | 'at'` relation of the current price to the
current MA tracked across ticks by `startTrading`. -/
inductive PriceVsMA
  | above | below | atMA
  deriving DecidableEq, Repr

/-- The in-memory position record created on a filled buy.  `entryTime`,
`orderId` and `bracketOrder` are bookkeeping for display and are omitted. -/
structure Position where
  entryPrice : ℚ
  quantity : ℚ
  stopLoss : ℚ
  takeProfit : ℚ
  deriving DecidableEq, Repr

/-- The configuration the live loop runs under: the winning strategy, the
timeframe, the historical bars loaded before trading starts (the source
never mutates `this.historicalData` inside `startTrading`, so the trailing
volatility it derives is one constant per run), the risk mode, and the
manual-mode TP/SL settings (`this.stopLossPercent`, `this.riskRewardRatio`).
`volatility` is the value of
`this.calculateVolatility(this.historicalData.slice(-50))`, i.e. the square
root of `calculateVolatilitySq` of those bars, precomputed because `ℚ` has
no square root. -/
structure BotConfig where
  strategyType : MAType
  strategyLength : Nat
  timeframe : Timeframe
  historicalData : List Bar
  volatility : ℚ
  useMLRisk : Bool
  stopLossPercentCfg : ℚ
  riskRewardCfg : ℚ
  accountInfo : MLRiskManager.AccountInfo
  deriving DecidableEq, Repr

/-- The mutable state of one iteration of the `while (this.isRunning)` loop
of `startTrading`: the rolling price window, the open position, the tracked
price-vs-MA relation (`null` before the first tick), the initialization
countdown, and the initialization-complete flag.  (`checkCount` and
`lastLogTime` only drive console output and are omitted.) -/
structure BotState where
  priceHistory : List ℚ
  position : Option Position
  previousPriceVsMA : Option PriceVsMA
  initializationWaitTicks : Nat
  initializationComplete : Bool
  deriving DecidableEq, Repr

/-- The loop state as `startTrading` sets it up before the first tick. -/
def initState (cfg : BotConfig) : BotState :=
  { priceHistory := cfg.historicalData.map (·.close)
    position := none
    previousPriceVsMA := none
    initializationWaitTicks := 10
    initializationComplete := false }

/-- The per-tick inputs from the external world: the freshly fetched price
and whether the order submissions (if any) succeed. -/
structure TickInput where
  currentPrice : ℚ
  buySucceeds : Bool
  sellSucceeds : Bool
  deriving DecidableEq, Repr

/-- The externally observable order submissions of one tick. -/
structure TickEvents where
  buySubmitted : Bool
  sellSubmitted : Bool
  deriving DecidableEq, Repr

/-- Push the fresh price and evict the oldest once the rolling window
exceeds 1000 (`priceHistory.push(...)` then `shift()`). -/
def pushPrice (priceHistory : List ℚ) (currentPrice : ℚ) : List ℚ :=
  let h := priceHistory ++ [currentPrice]
  if 1000 < h.length then h.drop 1 else h

/-- `calculateCurrentMA(priceHistory)`: last value of the optimized MA
series, falling back to the last price when the MA is unavailable. -/
def calculateCurrentMA (cfg : BotConfig) (priceHistory : List ℚ) : ℚ :=
  match StrategyOptimizer.calculateMA priceHistory cfg.strategyType cfg.strategyLength with
  | some maValues =>
    if 0 < maValues.length then maValues.getLastD 0 else priceHistory.getLastD 0
  | none => priceHistory.getLastD 0

/-- `isAbove ? 'above' : isBelow ? 'below' : 'at'`. -/
def relOf (currentPrice currentMA : ℚ) : PriceVsMA :=
  if currentMA < currentPrice then .above
  else if currentPrice < currentMA then .below
  else .atMA

/-- The timeframe-dependent volatility threshold of the loop's filter
(`'1m' ? 0.05 : '5m' ? 0.03 : 0.02`). -/
def maxVolatilityThreshold : Timeframe → ℚ
  | .m1 => 0.05
  | .m5 => 0.03
  | .m15 => 0.02

/-- The TP/SL management branch of an armed tick (`else if (position)`):
sell when the price reaches the take profit or the stop loss, clearing the
position only on a successful sell. -/
def tradeDecisionManage (inp : TickInput) (position : Option Position) :
    Option Position × TickEvents :=
  match position with
  | some p =>
    if p.takeProfit ≤ inp.currentPrice ∨ inp.currentPrice ≤ p.stopLoss then
      if inp.sellSucceeds then (none, ⟨false, true⟩) else (some p, ⟨false, true⟩)
    else (some p, ⟨false, false⟩)
  | none => (none, ⟨false, false⟩)

/-- The trading decision of one armed tick (source lines following the
initialization block): the volatility-filter skip, the
crossover-confirmed buy with ML or manual TP/SL and sizing, and the TP/SL
exit management of an open position.  `prevLocal` is the value the mutable
`previousPriceVsMA` holds when the `crossedAbove` test runs (the tick that
completes initialization has just overwritten it with the current
relation). -/
def tradeDecision (cfg : BotConfig) (priceHistory : List ℚ) (inp : TickInput)
    (prevLocal rel : PriceVsMA) (position : Option Position) :
    Option Position × TickEvents :=
  let signal := StrategyOptimizer.calculateSignals priceHistory cfg.strategyType cfg.strategyLength
  let crossedAbove := decide (prevLocal = .below) && decide (rel = .above)
  let volatility := cfg.volatility
  let isHighVolatility := decide (maxVolatilityThreshold cfg.timeframe < volatility)
  if isHighVolatility && (decide (cfg.timeframe = .m1) || decide (cfg.timeframe = .m5)) then
    (position, ⟨false, false⟩)
  else if decide (signal.action = .BUY) && position.isNone && crossedAbove then
    let tpslSize :=
      if cfg.useMLRisk then
        let mlResult := MLRiskManager.calculateOptimalTPSL cfg.historicalData inp.currentPrice
          cfg.strategyType cfg.strategyLength 0.001 0 cfg.timeframe cfg.volatility
        let positionResult := MLRiskManager.calculatePositionSize cfg.accountInfo 1.0
          inp.currentPrice mlResult.stopLossOf cfg.volatility 0 cfg.timeframe
        (mlResult.stopLossOf, mlResult.takeProfitOf, positionResult.size)
      else
        (inp.currentPrice * (1 - cfg.stopLossPercentCfg / 100),
         inp.currentPrice * (1 + cfg.stopLossPercentCfg * cfg.riskRewardCfg / 100),
         0.001)
    if inp.buySucceeds then
      (some
        { entryPrice := inp.currentPrice
          quantity := tpslSize.2.2
          stopLoss := tpslSize.1
          takeProfit := tpslSize.2.1 }, ⟨true, false⟩)
    else (position, ⟨true, false⟩)
  else tradeDecisionManage inp position

/-- One iteration of the `while (this.isRunning)` loop of `startTrading`:
fetch the price (always successful here; the retry/fatal error handling of
the source changes no loop state), update the rolling window, run the
initialization state machine, and in an armed tick run `tradeDecision`.
`previousPriceVsMA` is updated to the latest relation on every path. -/
def step (cfg : BotConfig) (s : BotState) (inp : TickInput) : BotState × TickEvents :=
  let priceHistory := pushPrice s.priceHistory inp.currentPrice
  let currentMA := calculateCurrentMA cfg priceHistory
  let rel := relOf inp.currentPrice currentMA
  match s.previousPriceVsMA with
  | none =>
    ({ priceHistory := priceHistory
       position := s.position
       previousPriceVsMA := some rel
       initializationWaitTicks := s.initializationWaitTicks
       initializationComplete := s.initializationComplete }, ⟨false, false⟩)
  | some prev0 =>
    if 0 < s.initializationWaitTicks then
      if 0 < s.initializationWaitTicks - 1 then
        ({ priceHistory := priceHistory
           position := s.position
           previousPriceVsMA := some rel
           initializationWaitTicks := s.initializationWaitTicks - 1
           initializationComplete := s.initializationComplete }, ⟨false, false⟩)
      else
        let pe := tradeDecision cfg priceHistory inp rel rel s.position
        ({ priceHistory := priceHistory
           position := pe.1
           previousPriceVsMA := some rel
           initializationWaitTicks := 0
           initializationComplete := true }, pe.2)
    else
      let pe := tradeDecision cfg priceHistory inp prev0 rel s.position
      ({ priceHistory := priceHistory
         position := pe.1
         previousPriceVsMA := some rel
         initializationWaitTicks := s.initializationWaitTicks
         initializationComplete := s.initializationComplete }, pe.2)

/-- The states of the trading loop reachable from its starting state. -/
inductive Reachable (cfg : BotConfig) : BotState → Prop
  | init : Reachable cfg (initState cfg)
  | tick (s : BotState) (inp : TickInput) : Reachable cfg s → Reachable cfg (step cfg s inp).1

/-- Run the loop over a list of tick inputs from the starting state. -/
def runBot (cfg : BotConfig) (inputs : List TickInput) : BotState :=
  inputs.foldl (fun s inp => (step cfg s inp).1) (initState cfg)

end BitFlowBot

/-! ## Claim C7: ATR fallback on insufficient data -/

/-- **C7**: for every input on which the ATR is not computable (fewer than
`period + 1 = 15` bars), `calculateOptimalTPSL` returns the fixed-percentage
fallback `stopLoss = currentPrice * 0.985`, `takeProfit = currentPrice * 1.03`,
confidence `0.5`, and raises no error to the caller (the embedded function is
total). -/
theorem c7_atr_fallback (priceData : List Bar) (currentPrice : ℚ) (maType : MAType)
    (maLength : Nat) (positionSize volume30Day : ℚ) (timeframe : Timeframe)
    (volatility : ℚ) (h : priceData.length < 15) :
    MLRiskManager.calculateOptimalTPSL priceData currentPrice maType maLength positionSize
      volume30Day timeframe volatility =
      .fallback (currentPrice * 0.985) (currentPrice * 1.03) 0.5 := by
  have hatr : MLRiskManager.calculateATR priceData 14 = none := by
    unfold MLRiskManager.calculateATR
    rw [if_pos (by omega)]
  unfold MLRiskManager.calculateOptimalTPSL
  rw [hatr]

/-- Witness for C7 at a concrete input: the empty bar list. -/
theorem c7_atr_fallback_witness :
    MLRiskManager.calculateOptimalTPSL [] 100 .SMA 5 0.001 0 .m5 0 =
      .fallback (100 * 0.985) (100 * 1.03) 0.5 :=
  c7_atr_fallback [] 100 .SMA 5 0.001 0 .m5 0 (by decide)

/-! ## Claim C4: the composite score formula -/

/-- Clamp a value to `[0, 1]`, as the spec's `clamp(x, 0, 1)`. -/
def clamp01 (x : ℚ) : ℚ := max 0 (min 1 x)

/-- Modelled from the spec: the composite-score formula of the optimizer,
`0.4*clamp((crossoverScore+100)/200) + 0.2*clamp(rSquared) + 0.2*clamp(winRate)
+ 0.1*clamp(profitFactor/1000) + 0.1*clamp(1 - maxDrawdown/1000)`, multiplied
by the timeframe multiplier `0.9` (1m), `1.0` (5m), `0.95` (15m). -/
def compositeScoreSpec (crossoverScore rSquared winRate profitFactor maxDrawdown : ℚ)
    (timeframe : Timeframe) : ℚ :=
  (0.4 * clamp01 ((crossoverScore + 100) / 200) + 0.2 * clamp01 rSquared +
      0.2 * clamp01 winRate + 0.1 * clamp01 (profitFactor / 1000) +
      0.1 * clamp01 (1 - maxDrawdown / 1000)) *
    (match timeframe with
     | .m1 => 0.9
     | .m5 => 1.0
     | .m15 => 0.95)

/-- **C4**: for every scored candidate, the composite score computed by the
source equals the spec's formula. -/
theorem c4_composite_formula (crossoverScore rSquared : ℚ)
    (performance : StrategyOptimizer.Performance) (timeframe : Timeframe) :
    StrategyOptimizer.calculateCompositeScore crossoverScore rSquared performance timeframe =
      compositeScoreSpec crossoverScore rSquared performance.winRate performance.profitFactor
        performance.maxDrawdown timeframe := by
  cases timeframe <;> rfl

/-! ## Claim C10: the composite score always lies in `[0, 1]` -/

/-- **C10**: for every input (any crossover score, r-squared, performance
record and timeframe), the composite score lies in `[0, 1]`: each weighted
term is clamped to `[0, 1]`, the weights sum to `1`, and the timeframe
multiplier never exceeds `1`. -/
theorem c10_composite_bounds (crossoverScore rSquared : ℚ)
    (performance : StrategyOptimizer.Performance) (timeframe : Timeframe) :
    0 ≤ StrategyOptimizer.calculateCompositeScore crossoverScore rSquared performance timeframe ∧
      StrategyOptimizer.calculateCompositeScore crossoverScore rSquared performance timeframe ≤ 1 := by
  have hb : ∀ x : ℚ, 0 ≤ max 0 (min 1 x) ∧ max 0 (min 1 x) ≤ 1 := fun x =>
    ⟨le_max_left 0 _, max_le (by norm_num) (min_le_left 1 x)⟩
  obtain ⟨h1a, h1b⟩ := hb ((crossoverScore + 100) / 200)
  obtain ⟨h2a, h2b⟩ := hb rSquared
  obtain ⟨h3a, h3b⟩ := hb performance.winRate
  obtain ⟨h4a, h4b⟩ := hb (performance.profitFactor / 1000)
  obtain ⟨h5a, h5b⟩ := hb (1 - performance.maxDrawdown / 1000)
  unfold StrategyOptimizer.calculateCompositeScore
  cases timeframe <;>
    simp only [StrategyOptimizer.timeframeScoreMultiplier] <;>
    constructor <;> nlinarith

/-! ## Claim C9: the position-sizing scenario -/

/-- Structural fact about `calculatePositionSize`: the reported `actualRisk`
is the stop distance times the final size plus the fees recomputed at that
size (the source's
`actualRisk = (stopDistance * positionSize) + finalFees.totalFees`). -/
lemma calculatePositionSize_actualRisk (accountInfo : MLRiskManager.AccountInfo)
    (riskPercent entryPrice stopLoss volatility volume30Day : ℚ) (timeframe : Timeframe) :
    (MLRiskManager.calculatePositionSize accountInfo riskPercent entryPrice stopLoss volatility
        volume30Day timeframe).actualRisk =
      |entryPrice - stopLoss| *
          (MLRiskManager.calculatePositionSize accountInfo riskPercent entryPrice stopLoss
            volatility volume30Day timeframe).size +
        (MLRiskManager.calculateTradeFees
          (MLRiskManager.calculatePositionSize accountInfo riskPercent entryPrice stopLoss
            volatility volume30Day timeframe).size entryPrice stopLoss volume30Day).totalFees :=
  rfl

/-- Structural fact: `actualRiskPercent = actualRisk / equity * 100`. -/
lemma calculatePositionSize_actualRiskPercent (accountInfo : MLRiskManager.AccountInfo)
    (riskPercent entryPrice stopLoss volatility volume30Day : ℚ) (timeframe : Timeframe) :
    (MLRiskManager.calculatePositionSize accountInfo riskPercent entryPrice stopLoss volatility
        volume30Day timeframe).actualRiskPercent =
      (MLRiskManager.calculatePositionSize accountInfo riskPercent entryPrice stopLoss volatility
        volume30Day timeframe).actualRisk / accountInfo.equity * 100 :=
  rfl

/-- The embedded `calculatePositionSize` at the scenario input
`{equity: 10000, buyingPower: 20000}`, `riskPercent = 1`, `entryPrice = 100`,
`stopLoss = 99`, `volatility = 0.02`, default volume and timeframe. -/
def c9result : MLRiskManager.SizeResult :=
  MLRiskManager.calculatePositionSize ⟨10000, 20000⟩ 1 100 99 0.02 0 .m5

set_option maxRecDepth 3000 in
/-- The scenario's `actualRiskPercent` is exactly `0.224625`: the
15%-of-equity cap binds the size at `15`, so the realized risk is far below
the 1% budget. -/
lemma c9_actualRiskPercent : c9result.actualRiskPercent = 1797 / 8000 := by
  have hsize : c9result.size = 15 := by with_unfolding_all decide
  have hfees : (MLRiskManager.calculateTradeFees 15 100 99 0).totalFees = 597 / 80 := by
    with_unfolding_all decide
  have h1 : c9result.actualRisk =
      |(100 : ℚ) - 99| * c9result.size +
        (MLRiskManager.calculateTradeFees c9result.size 100 99 0).totalFees :=
    calculatePositionSize_actualRisk ⟨10000, 20000⟩ 1 100 99 0.02 0 .m5
  rw [hsize, hfees] at h1
  have habs : |(100 : ℚ) - 99| = 1 := by
    rw [show (100 : ℚ) - 99 = 1 by norm_num]
    exact abs_one
  rw [habs] at h1
  norm_num at h1
  have h2 : c9result.actualRiskPercent = c9result.actualRisk / 10000 * 100 :=
    calculatePositionSize_actualRiskPercent ⟨10000, 20000⟩ 1 100 99 0.02 0 .m5
  rw [h2, h1]
  norm_num

/-- **C9 counterexample**: at the scenario input the returned
`actualRiskPercent` is exactly `0.224625` — it is not close to `1.1` (it is
even below `1`), because the 15%-of-equity cap binds the size at `15`. -/
theorem c9_counterexample :
    c9result.actualRiskPercent = 1797 / 8000 ∧ ¬ (1 ≤ c9result.actualRiskPercent) := by
  refine ⟨c9_actualRiskPercent, ?_⟩
  rw [c9_actualRiskPercent]
  norm_num

set_option maxRecDepth 3000 in
/-- **C9 (amended)**: at the scenario input the size is positive,
`size * 100 ≤ 1500` (at most 15% of equity, attained with equality), and
`actualRiskPercent = 0.224625`, well below the claimed ≈1.1%. -/
theorem c9_scenario_amended :
    0 < c9result.size ∧ c9result.size * 100 ≤ 1500 ∧
      c9result.actualRiskPercent = 1797 / 8000 := by
  have hsize : c9result.size = 15 := by with_unfolding_all decide
  refine ⟨?_, ?_, c9_actualRiskPercent⟩ <;> rw [hsize] <;> norm_num

/-! ## Claim C3: the fee-inclusive position-sizing budget -/

/-- The input exhibiting the budget violation: equity `10000`, buying power
`20000`, `riskPercent = 0.01`, entry `100`, stop `99.6`, volatility `0.02`.
Here the round-trip fee at the initial size exceeds the whole risk budget,
`adjustedRiskAmount <= 0`, and the source keeps the fee-unadjusted size. -/
def c3result : MLRiskManager.SizeResult :=
  MLRiskManager.calculatePositionSize ⟨10000, 20000⟩ (1 / 100) 100 99.6 0.02 0 .m5

set_option maxRecDepth 3000 in
/-- **C3 (code bug)**: at a valid input the returned size violates
`size * stopDistance + fees <= riskAmount` although the size was not raised
to the `minPositionSize` floor (`size = 2.5`, `riskAmount = 1`, but
`actualRisk = size * stopDistance + fees = 2.2475`), contradicting the
source's own comment "We need to ensure: (stopDistance * positionSize) +
fees.totalFees <= riskAmount" and the spec's
`size = max(0, riskAmount - fees) / stopDistance` step. -/
theorem c3_budget_violation :
    c3result.size = 5 / 2 ∧ c3result.riskAmount = 1 ∧ c3result.actualRisk = 899 / 400 ∧
      c3result.riskAmount < c3result.actualRisk ∧
      MLRiskManager.minPositionSize < c3result.size := by
  have hsize : c3result.size = 5 / 2 := by with_unfolding_all decide
  have hra : c3result.riskAmount = 1 := by with_unfolding_all decide
  have hfees : (MLRiskManager.calculateTradeFees (5 / 2) 100 99.6 0).totalFees = 499 / 400 := by
    with_unfolding_all decide
  have h1 : c3result.actualRisk =
      |(100 : ℚ) - 99.6| * c3result.size +
        (MLRiskManager.calculateTradeFees c3result.size 100 99.6 0).totalFees :=
    calculatePositionSize_actualRisk ⟨10000, 20000⟩ (1 / 100) 100 99.6 0.02 0 .m5
  rw [hsize, hfees] at h1
  have habs : |(100 : ℚ) - 99.6| = 2 / 5 := by
    rw [show (100 : ℚ) - 99.6 = 2 / 5 by norm_num]
    exact abs_of_pos (by norm_num)
  rw [habs] at h1
  norm_num at h1
  refine ⟨hsize, hra, h1, ?_, ?_⟩
  · rw [hra, h1]; norm_num
  · rw [hsize]; norm_num [MLRiskManager.minPositionSize]

/-! ## Claim C1: TP/SL percentage bounds after fee adjustment -/

namespace MLRiskManager

/-- Every fee rate of the tier schedule is nonnegative. -/
lemma getFeeRate_nonneg (volume30Day : ℚ) (isMaker : Bool) :
    0 ≤ getFeeRate volume30Day isMaker := by
  unfold getFeeRate
  rcases hfind : feeTiers.reverse.find? (fun t => decide (t.volume ≤ volume30Day)) with _ | t
  · rw [hfind]
    cases isMaker <;> norm_num
  · have ht := List.mem_of_find?_eq_some hfind
    rw [List.mem_reverse] at ht
    have hmt : 0 ≤ t.maker ∧ 0 ≤ t.taker := by
      fin_cases ht <;> constructor <;> norm_num
    rw [hfind]
    cases isMaker
    · simpa using hmt.2
    · simpa using hmt.1

/-- Round-trip fees are nonnegative for nonnegative size and prices. -/
lemma calculateTradeFees_totalFees_nonneg (positionSize entryPrice exitPrice volume30Day : ℚ)
    (hps : 0 ≤ positionSize) (hep : 0 ≤ entryPrice) (hex : 0 ≤ exitPrice) :
    0 ≤ (calculateTradeFees positionSize entryPrice exitPrice volume30Day).totalFees := by
  have hr := getFeeRate_nonneg volume30Day false
  show 0 ≤ positionSize * getFeeRate volume30Day false * entryPrice +
      positionSize * exitPrice * getFeeRate volume30Day false
  have h1 : 0 ≤ positionSize * getFeeRate volume30Day false * entryPrice :=
    mul_nonneg (mul_nonneg hps hr) hep
  have h2 : 0 ≤ positionSize * exitPrice * getFeeRate volume30Day false :=
    mul_nonneg (mul_nonneg hps hex) hr
  linarith

/-- The stop-loss safety clamp lands in `[minStopLossPercent, maxStopLossPercent]`. -/
lemma slPercentClamped_mem (x : ℚ) :
    minStopLossPercent ≤ slPercentClamped x ∧ slPercentClamped x ≤ maxStopLossPercent :=
  ⟨le_max_left _ _,
   max_le (by norm_num [minStopLossPercent, maxStopLossPercent]) (min_le_left _ _)⟩

/-- The take-profit safety clamp lands in
`[minTakeProfitPercent, maxTakeProfitPercent]`. -/
lemma tpPercentClamped_mem (x : ℚ) :
    minTakeProfitPercent ≤ tpPercentClamped x ∧ tpPercentClamped x ≤ maxTakeProfitPercent :=
  ⟨le_max_left _ _,
   max_le (by norm_num [minTakeProfitPercent, maxTakeProfitPercent]) (min_le_left _ _)⟩

/-- The timeframe adjustment keeps the stop-loss percentage at least
`minStopLossPercent`, at most `maxStopLossPercent * 1.2`, and at most
`maxStopLossPercent` whenever the timeframe is not 1m. -/
lemma slPercentTimeframe_bounds (timeframe : Timeframe) (x : ℚ)
    (h1 : minStopLossPercent ≤ x) (h2 : x ≤ maxStopLossPercent) :
    minStopLossPercent ≤ slPercentTimeframe timeframe x ∧
      slPercentTimeframe timeframe x ≤ maxStopLossPercent * 1.2 ∧
      (timeframe ≠ .m1 → slPercentTimeframe timeframe x ≤ maxStopLossPercent) := by
  have hmin : minStopLossPercent = 0.2 := rfl
  have hmax : maxStopLossPercent = 0.5 := rfl
  cases timeframe
  · simp only [slPercentTimeframe]
    refine ⟨le_min (by norm_num [hmin, hmax]) ?_, min_le_left _ _, fun hne => absurd rfl hne⟩
    rw [hmin] at h1 ⊢
    linarith
  · simp only [slPercentTimeframe]
    rw [hmin] at h1
    rw [hmax] at h2 ⊢
    exact ⟨by rw [hmin]; linarith, by linarith, fun _ => by linarith⟩
  · simp only [slPercentTimeframe]
    rw [hmin] at h1
    rw [hmax] at h2 ⊢
    exact ⟨by rw [hmin]; linarith, by linarith, fun _ => by linarith⟩

/-- The timeframe adjustment never lowers the take-profit percentage below
`minTakeProfitPercent`. -/
lemma tpPercentTimeframe_lower (timeframe : Timeframe) (x : ℚ)
    (h1 : minTakeProfitPercent ≤ x) :
    minTakeProfitPercent ≤ tpPercentTimeframe timeframe x := by
  have hmin : minTakeProfitPercent = 0.3 := rfl
  have hmax : maxTakeProfitPercent = 0.5 := rfl
  cases timeframe
  · simp only [tpPercentTimeframe]
    exact le_min (by norm_num [hmin, hmax]) (by rw [hmin] at h1 ⊢; linarith)
  · simp only [tpPercentTimeframe]
    exact le_min (by norm_num [hmin, hmax]) (by rw [hmin] at h1 ⊢; linarith)
  · simp only [tpPercentTimeframe]
    exact h1

/-- After the fee adjustment and the final re-clamp, the take-profit
percentage still lies in `[minTakeProfitPercent, maxTakeProfitPercent]`:
the fee adjustment only raises it (fees are nonnegative) and the re-clamp
caps it. -/
lemma tpAfterFee_bounds (currentPrice positionSize volume30Day T : ℚ)
    (hcp : 0 < currentPrice) (hps : 0 < positionSize)
    (hT : minTakeProfitPercent ≤ T) :
    minTakeProfitPercent ≤
        (if (currentPrice * (1 + T / 100) +
              (calculateTradeFees positionSize currentPrice (currentPrice * (1 + T / 100))
                volume30Day).totalFees / positionSize - currentPrice) / currentPrice * 100 >
            maxTakeProfitPercent
         then maxTakeProfitPercent
         else (currentPrice * (1 + T / 100) +
              (calculateTradeFees positionSize currentPrice (currentPrice * (1 + T / 100))
                volume30Day).totalFees / positionSize - currentPrice) / currentPrice * 100) ∧
      (if (currentPrice * (1 + T / 100) +
              (calculateTradeFees positionSize currentPrice (currentPrice * (1 + T / 100))
                volume30Day).totalFees / positionSize - currentPrice) / currentPrice * 100 >
            maxTakeProfitPercent
       then maxTakeProfitPercent
       else (currentPrice * (1 + T / 100) +
              (calculateTradeFees positionSize currentPrice (currentPrice * (1 + T / 100))
                volume30Day).totalFees / positionSize - currentPrice) / currentPrice * 100) ≤
        maxTakeProfitPercent := by
  have hmin : minTakeProfitPercent = 0.3 := rfl
  have hT0 : (0 : ℚ) ≤ T := by rw [hmin] at hT; linarith
  have htp0 : 0 < currentPrice * (1 + T / 100) := by
    apply mul_pos hcp; linarith
  have hfee : 0 ≤ (calculateTradeFees positionSize currentPrice
      (currentPrice * (1 + T / 100)) volume30Day).totalFees :=
    calculateTradeFees_totalFees_nonneg _ _ _ _ hps.le hcp.le htp0.le
  set F := (calculateTradeFees positionSize currentPrice (currentPrice * (1 + T / 100))
      volume30Day).totalFees with hF
  have hq : 0 ≤ F / positionSize / currentPrice * 100 := by
    have h1 : 0 ≤ F / positionSize := div_nonneg hfee hps.le
    have h2 : 0 ≤ F / positionSize / currentPrice := div_nonneg h1 hcp.le
    linarith
  have hA : (currentPrice * (1 + T / 100) + F / positionSize - currentPrice) /
        currentPrice * 100 = T + F / positionSize / currentPrice * 100 := by
    field_simp
    ring
  rw [hA]
  split
  · exact ⟨by norm_num [minTakeProfitPercent, maxTakeProfitPercent], le_refl _⟩
  · next hgt =>
    push_neg at hgt
    exact ⟨by linarith, hgt⟩

/-- The take-profit percentage as it stands right before the fee
adjustment (clamped, then timeframe-adjusted); proof-side abbreviation. -/
def tpPercentPreFee (priceData : List Bar) (currentPrice : ℚ) (timeframe : Timeframe)
    (volatility atr : ℚ) : ℚ :=
  tpPercentTimeframe timeframe (tpPercentClamped
    (currentPrice *
        (slPercentClamped (atr * atrMultiplier * max 0.5 (min 2.0 (volatility / 0.02)) /
            currentPrice * 100) / 100) *
        (riskRewardRatioBase *
          (1 + |calculateTrend (priceData.drop (priceData.length - volatilityWindow))| * 0.5)) /
      currentPrice * 100))

/-- The stop-loss percentage field of the core result, structurally. -/
lemma core_stopLossPercent_eq (priceData : List Bar) (currentPrice : ℚ) (maLength : Nat)
    (positionSize volume30Day : ℚ) (timeframe : Timeframe) (volatility atr : ℚ) :
    (calculateOptimalTPSLCore priceData currentPrice maLength positionSize volume30Day
        timeframe volatility atr).stopLossPercent =
      slPercentTimeframe timeframe (slPercentClamped
        (atr * atrMultiplier * max 0.5 (min 2.0 (volatility / 0.02)) / currentPrice * 100)) :=
  rfl

/-- The take-profit percentage field of the core result, structurally. -/
lemma core_takeProfitPercent_eq (priceData : List Bar) (currentPrice : ℚ) (maLength : Nat)
    (positionSize volume30Day : ℚ) (timeframe : Timeframe) (volatility atr : ℚ) :
    (calculateOptimalTPSLCore priceData currentPrice maLength positionSize volume30Day
        timeframe volatility atr).takeProfitPercent =
      (if (currentPrice * (1 + tpPercentPreFee priceData currentPrice timeframe volatility atr / 100) +
            (calculateTradeFees positionSize currentPrice
              (currentPrice * (1 + tpPercentPreFee priceData currentPrice timeframe volatility atr / 100))
              volume30Day).totalFees / positionSize - currentPrice) / currentPrice * 100 >
          maxTakeProfitPercent
       then maxTakeProfitPercent
       else (currentPrice * (1 + tpPercentPreFee priceData currentPrice timeframe volatility atr / 100) +
            (calculateTradeFees positionSize currentPrice
              (currentPrice * (1 + tpPercentPreFee priceData currentPrice timeframe volatility atr / 100))
              volume30Day).totalFees / positionSize - currentPrice) / currentPrice * 100) :=
  rfl

end MLRiskManager

namespace MLRiskManager

/-- Bounds for the core TP/SL result, for every input: the take-profit
percentage stays in `[minTakeProfitPercent, maxTakeProfitPercent]` even
after the fee adjustment, while the stop-loss percentage stays in
`[minStopLossPercent, maxStopLossPercent * 1.2]` — the 1m timeframe
adjustment can push it up to `0.6`; on the other timeframes it stays within
`maxStopLossPercent`. -/
lemma calculateOptimalTPSLCore_bounds (priceData : List Bar) (currentPrice : ℚ)
    (maLength : Nat) (positionSize volume30Day : ℚ) (timeframe : Timeframe)
    (volatility atr : ℚ) (hcp : 0 < currentPrice) (hps : 0 < positionSize) :
    (minTakeProfitPercent ≤
        (calculateOptimalTPSLCore priceData currentPrice maLength positionSize volume30Day
          timeframe volatility atr).takeProfitPercent ∧
      (calculateOptimalTPSLCore priceData currentPrice maLength positionSize volume30Day
          timeframe volatility atr).takeProfitPercent ≤ maxTakeProfitPercent) ∧
    (minStopLossPercent ≤
        (calculateOptimalTPSLCore priceData currentPrice maLength positionSize volume30Day
          timeframe volatility atr).stopLossPercent ∧
      (calculateOptimalTPSLCore priceData currentPrice maLength positionSize volume30Day
          timeframe volatility atr).stopLossPercent ≤ maxStopLossPercent * 1.2) ∧
    (timeframe ≠ .m1 →
      (calculateOptimalTPSLCore priceData currentPrice maLength positionSize volume30Day
          timeframe volatility atr).stopLossPercent ≤ maxStopLossPercent) := by
  have hsl := slPercentClamped_mem
    (atr * atrMultiplier * max 0.5 (min 2.0 (volatility / 0.02)) / currentPrice * 100)
  have hslb := slPercentTimeframe_bounds timeframe _ hsl.1 hsl.2
  have htpc := tpPercentClamped_mem
    (currentPrice *
        (slPercentClamped (atr * atrMultiplier * max 0.5 (min 2.0 (volatility / 0.02)) /
            currentPrice * 100) / 100) *
        (riskRewardRatioBase *
          (1 + |calculateTrend (priceData.drop (priceData.length - volatilityWindow))| * 0.5)) /
      currentPrice * 100)
  have hT : minTakeProfitPercent ≤ tpPercentPreFee priceData currentPrice timeframe volatility atr :=
    tpPercentTimeframe_lower timeframe _ htpc.1
  have htp := tpAfterFee_bounds currentPrice positionSize volume30Day
    (tpPercentPreFee priceData currentPrice timeframe volatility atr) hcp hps hT
  rw [core_stopLossPercent_eq, core_takeProfitPercent_eq]
  exact ⟨htp, ⟨hslb.1, hslb.2.1⟩, hslb.2.2⟩

end MLRiskManager

/-- **C1 (amended)**: whenever `calculateOptimalTPSL` takes its ML branch
(ATR computable and nonzero), for every bar series, positive current price,
positive position size, volume and volatility: the returned
`takeProfitPercent` lies in `[minTakeProfitPct, maxTakeProfitPct] = [0.3, 0.5]`
even after the fee adjustment, and the returned `stopLossPercent` lies in
`[minStopLossPct, maxStopLossPct * 1.2] = [0.2, 0.6]`; for every timeframe
other than 1m it lies in the claimed `[0.2, 0.5]`.  (The 1m branch
multiplies the stop-loss percentage by 1.2 capped at `0.6`, so the claimed
upper bound `0.5` fails exactly there — see `c1_counterexample`.) -/
theorem c1_tpsl_bounds_amended (priceData : List Bar) (currentPrice : ℚ) (maType : MAType)
    (maLength : Nat) (positionSize volume30Day : ℚ) (timeframe : Timeframe) (volatility : ℚ)
    (r : MLRiskManager.TPSLData) (hcp : 0 < currentPrice) (hps : 0 < positionSize)
    (h : MLRiskManager.calculateOptimalTPSL priceData currentPrice maType maLength positionSize
        volume30Day timeframe volatility = .mlAtrFees r) :
    (MLRiskManager.minTakeProfitPercent ≤ r.takeProfitPercent ∧
        r.takeProfitPercent ≤ MLRiskManager.maxTakeProfitPercent) ∧
      (MLRiskManager.minStopLossPercent ≤ r.stopLossPercent ∧
        r.stopLossPercent ≤ MLRiskManager.maxStopLossPercent * 1.2) ∧
      (timeframe ≠ .m1 → r.stopLossPercent ≤ MLRiskManager.maxStopLossPercent) := by
  unfold MLRiskManager.calculateOptimalTPSL at h
  split at h
  · exact absurd h (by simp)
  · split at h
    · exact absurd h (by simp)
    · injection h with hd
      subst hd
      exact MLRiskManager.calculateOptimalTPSLCore_bounds _ _ _ _ _ _ _ _ hcp hps

/-- Fifteen bars of high `110`, low `90`, close `100`: ATR is `20`, so the
raw stop-loss percentage saturates the clamp at `0.5`. -/
def c1bars : List Bar := List.replicate 15 ⟨110, 90, 100⟩

/-- The ATR of `c1bars` (true range `20` on every bar). -/
lemma c1bars_atr : MLRiskManager.calculateATR c1bars 14 = some 20 := by
  with_unfolding_all decide

/-- On `c1bars` the wrapper takes the ML branch. -/
lemma c1bars_ml_branch (currentPrice : ℚ) (maType : MAType) (maLength : Nat)
    (positionSize volume30Day : ℚ) (timeframe : Timeframe) (volatility : ℚ) :
    MLRiskManager.calculateOptimalTPSL c1bars currentPrice maType maLength positionSize
        volume30Day timeframe volatility =
      .mlAtrFees (MLRiskManager.calculateOptimalTPSLCore c1bars currentPrice maLength
        positionSize volume30Day timeframe volatility 20) := by
  unfold MLRiskManager.calculateOptimalTPSL
  rw [c1bars_atr]
  show (if (20 : ℚ) = 0 then MLRiskManager.TPSLResult.fallback (currentPrice * 0.985)
      (currentPrice * 1.03) 0.5
    else .mlAtrFees (MLRiskManager.calculateOptimalTPSLCore c1bars currentPrice maLength
      positionSize volume30Day timeframe volatility 20)) = _
  rw [if_neg (by norm_num)]

/-- **C1 counterexample**: on the 1m timeframe the returned
`stopLossPercent` is `0.6`, outside the claimed `[0.2, 0.5]` (the source
caps the 1m stop loss at `maxStopLossPercent * 1.2`, not at
`maxStopLossPercent`). -/
theorem c1_counterexample :
    ∃ d : MLRiskManager.TPSLData,
      MLRiskManager.calculateOptimalTPSL c1bars 100 .SMA 5 0.001 0 .m1 0 = .mlAtrFees d ∧
        d.stopLossPercent = 3 / 5 ∧ MLRiskManager.maxStopLossPercent < d.stopLossPercent := by
  refine ⟨MLRiskManager.calculateOptimalTPSLCore c1bars 100 5 0.001 0 .m1 0 20,
    c1bars_ml_branch 100 .SMA 5 0.001 0 .m1 0, ?_, ?_⟩
  · rw [MLRiskManager.core_stopLossPercent_eq]
    norm_num [MLRiskManager.slPercentTimeframe, MLRiskManager.slPercentClamped,
      MLRiskManager.atrMultiplier, MLRiskManager.minStopLossPercent,
      MLRiskManager.maxStopLossPercent, max_def, min_def]
  · rw [MLRiskManager.core_stopLossPercent_eq]
    norm_num [MLRiskManager.slPercentTimeframe, MLRiskManager.slPercentClamped,
      MLRiskManager.atrMultiplier, MLRiskManager.minStopLossPercent,
      MLRiskManager.maxStopLossPercent, max_def, min_def]

/-- The data returned at the concrete 5m witness input of C1
(left as the core term; the witness only needs the bounds). -/
def c1wdata : MLRiskManager.TPSLData :=
  MLRiskManager.calculateOptimalTPSLCore c1bars 100 5 0.001 0 .m5 0 20

/-- Witness for C1 (amended) at a concrete 5m input with 15 bars. -/
theorem c1_tpsl_bounds_amended_witness :
    (MLRiskManager.minTakeProfitPercent ≤ c1wdata.takeProfitPercent ∧
        c1wdata.takeProfitPercent ≤ MLRiskManager.maxTakeProfitPercent) ∧
      (MLRiskManager.minStopLossPercent ≤ c1wdata.stopLossPercent ∧
        c1wdata.stopLossPercent ≤ MLRiskManager.maxStopLossPercent * 1.2) ∧
      (Timeframe.m5 ≠ Timeframe.m1 →
        c1wdata.stopLossPercent ≤ MLRiskManager.maxStopLossPercent) :=
  c1_tpsl_bounds_amended c1bars 100 .SMA 5 0.001 0 .m5 0 c1wdata (by norm_num) (by norm_num)
    (c1bars_ml_branch 100 .SMA 5 0.001 0 .m5 0)

/-! ## Claim C5: the optimizer returns the first maximal candidate -/

namespace StrategyOptimizer

/-- The running-best recursion of the optimizer loop, started from `b`
(the source keeps the incumbent unless a strictly greater score appears,
so the first maximal candidate in iteration order wins). -/
def goBest (b : MAConfigResult) : List MAConfigResult → MAConfigResult
  | [] => b
  | c :: cs => goBest (if b.score < c.score then c else b) cs

/-- `foldl pickBest` from an incumbent never loses the incumbent slot. -/
lemma foldl_pickBest_some (l : List MAConfigResult) (b : MAConfigResult) :
    l.foldl pickBest (some b) = some (goBest b l) := by
  induction l generalizing b with
  | nil => rfl
  | cons c cs ih =>
    show cs.foldl pickBest (pickBest (some b) c) = _
    have hp : pickBest (some b) c = some (if b.score < c.score then c else b) := by
      show (if b.score < c.score then some c else some b) =
        some (if b.score < c.score then c else b)
      split <;> rfl
    rw [hp, ih]
    rfl

/-- The selected configuration is one of the candidates. -/
lemma goBest_mem (l : List MAConfigResult) (b : MAConfigResult) : goBest b l ∈ b :: l := by
  induction l generalizing b with
  | nil => exact List.mem_singleton.mpr rfl
  | cons c cs ih =>
    show goBest (if b.score < c.score then c else b) cs ∈ b :: c :: cs
    rcases List.mem_cons.mp (ih (if b.score < c.score then c else b)) with h1 | h1
    · rw [h1]
      split
      · exact List.mem_cons_of_mem _ (List.mem_cons_self _ _)
      · exact List.mem_cons_self _ _
    · exact List.mem_cons_of_mem _ (List.mem_cons_of_mem _ h1)

/-- The selected configuration has the maximal score among the candidates. -/
lemma goBest_le (l : List MAConfigResult) (b : MAConfigResult) :
    ∀ c ∈ b :: l, c.score ≤ (goBest b l).score := by
  induction l generalizing b with
  | nil =>
    intro c hc
    rw [List.mem_singleton.mp hc]
    exact le_refl _
  | cons d cs ih =>
    intro c hc
    show c.score ≤ (goBest (if b.score < d.score then d else b) cs).score
    have hbb : b.score ≤ (if b.score < d.score then d else b).score := by
      split
      · next hlt => exact le_of_lt hlt
      · exact le_refl _
    have hdb : d.score ≤ (if b.score < d.score then d else b).score := by
      split
      · exact le_refl _
      · next hge => exact not_lt.mp hge
    have hbase : ∀ e ∈ (if b.score < d.score then d else b) :: cs,
        e.score ≤ (goBest (if b.score < d.score then d else b) cs).score :=
      ih (if b.score < d.score then d else b)
    have hself := hbase _ (List.mem_cons_self _ _)
    rcases List.mem_cons.mp hc with h1 | h1
    · rw [h1]; exact le_trans hbb hself
    · rcases List.mem_cons.mp h1 with h2 | h2
      · rw [h2]; exact le_trans hdb hself
      · exact hbase _ (List.mem_cons_of_mem _ h2)

/-- Ties are broken by iteration order: scanning the candidates in order,
the selected configuration is the first one attaining the maximal score. -/
lemma goBest_first (l : List MAConfigResult) (b : MAConfigResult) :
    (b :: l).find? (fun c => decide ((goBest b l).score ≤ c.score)) = some (goBest b l) := by
  induction l generalizing b with
  | nil =>
    show [b].find? (fun c => decide (b.score ≤ c.score)) = some b
    simp [List.find?]
  | cons c cs ih =>
    by_cases hbc : b.score < c.score
    · have hgd : goBest b (c :: cs) = goBest c cs := by
        show goBest (if b.score < c.score then c else b) cs = _
        rw [if_pos hbc]
      have hcg : c.score ≤ (goBest c cs).score := goBest_le cs c c (List.mem_cons_self _ _)
      have hbfail : ¬ ((goBest b (c :: cs)).score ≤ b.score) := by
        rw [hgd]
        exact not_le.mpr (lt_of_lt_of_le hbc hcg)
      rw [List.find?_cons_of_neg _ (by simpa using hbfail), hgd]
      exact ih c
    · have hgd : goBest b (c :: cs) = goBest b cs := by
        show goBest (if b.score < c.score then c else b) cs = _
        rw [if_neg hbc]
      have hcb : c.score ≤ b.score := not_lt.mp hbc
      rw [hgd]
      by_cases hbpass : (goBest b cs).score ≤ b.score
      · have ihb := ih b
        rw [List.find?_cons_of_pos _ (by simpa using hbpass)] at ihb
        rw [List.find?_cons_of_pos _ (by simpa using hbpass)]
        exact ihb
      · have hcfail : ¬ ((goBest b cs).score ≤ c.score) := fun hcpass =>
          hbpass (le_trans hcpass hcb)
        have ihb := ih b
        rw [List.find?_cons_of_neg _ (by simpa using hbpass)] at ihb
        rw [List.find?_cons_of_neg _ (by simpa using hbpass),
          List.find?_cons_of_neg _ (by simpa using hcfail)]
        exact ihb

/-- What a successful fold of `pickBest` over the scored candidates yields:
a member of the list, of maximal score, and the first such member. -/
lemma selectBest_spec (results : List MAConfigResult) (b : MAConfigResult)
    (h : results.foldl pickBest none = some b) :
    b ∈ results ∧ (∀ c ∈ results, c.score ≤ b.score) ∧
      results.find? (fun c => decide (b.score ≤ c.score)) = some b := by
  cases results with
  | nil => exact absurd h (by simp)
  | cons c cs =>
    have h2 : cs.foldl pickBest (some c) = some b := h
    rw [foldl_pickBest_some] at h2
    injection h2 with h2
    subst h2
    exact ⟨goBest_mem cs c, goBest_le cs c, goBest_first cs c⟩

end StrategyOptimizer

/-- **C5**: whenever `optimizeMAParameters` succeeds, the winning
configuration is one of the scored candidates, its composite score is
maximal among them, ties are broken by iteration order (it is the first
candidate of the MA-type-major, ascending-length iteration attaining the
maximal score), and re-running on identical input bars yields the identical
outcome (the embedded optimizer is a pure function). -/
theorem c5_optimizer_max_first (historicalData : List Bar) (timeframe : Timeframe)
    (r : StrategyOptimizer.OptimizeOutcome)
    (h : StrategyOptimizer.optimizeMAParameters historicalData timeframe = .ok r) :
    r.best ∈ r.allResults ∧ (∀ c ∈ r.allResults, c.score ≤ r.best.score) ∧
      r.allResults.find? (fun c => decide (r.best.score ≤ c.score)) = some r.best ∧
      (∀ bars2, bars2 = historicalData →
        StrategyOptimizer.optimizeMAParameters bars2 timeframe = .ok r) := by
  have h0 := h
  unfold StrategyOptimizer.optimizeMAParameters at h
  split at h
  · exact absurd h (by simp)
  · simp only [] at h
    split at h
    · exact absurd h (by simp)
    · next bestConfig heq =>
      injection h with h
      subst h
      obtain ⟨h1, h2, h3⟩ := StrategyOptimizer.selectBest_spec _ _ heq
      exact ⟨h1, h2, h3, fun bars2 hb => hb ▸ h0⟩

/-- Fifty bars for the C5 witness; the last 25 closes are non-positive, so
the optimizer's positive-price filter leaves 25 usable prices and only the
length-5 SMA/EMA/WMA/VWAP candidates reach more than 20 MA points. -/
def w5bars : List Bar := List.replicate 25 ⟨1, 1, 1⟩ ++ List.replicate 25 ⟨0, 0, 0⟩

/-- The performance record every surviving C5-witness candidate gets
(constant prices produce no crossovers). -/
def w5perf : StrategyOptimizer.Performance := ⟨0, 0, 0, 0, 0, 0⟩

/-- A C5-witness candidate of the given MA type. -/
def w5cand (t : MAType) : StrategyOptimizer.MAConfigResult :=
  ⟨t, 5, 3 / 10, 0, 0, w5perf, .m5⟩

/-- The outcome of the optimizer on `w5bars`. -/
def w5res : StrategyOptimizer.OptimizeOutcome :=
  ⟨w5cand .SMA, [w5cand .SMA, w5cand .EMA, w5cand .WMA, w5cand .VWAP]⟩

set_option maxRecDepth 2500 in
set_option maxHeartbeats 8000000 in
/-- Witness for C5: a concrete 50-bar run of the optimizer. -/
theorem c5_optimizer_max_first_witness :
    w5res.best ∈ w5res.allResults ∧ (∀ c ∈ w5res.allResults, c.score ≤ w5res.best.score) ∧
      w5res.allResults.find? (fun c => decide (w5res.best.score ≤ c.score)) = some w5res.best ∧
      (∀ bars2, bars2 = w5bars →
        StrategyOptimizer.optimizeMAParameters bars2 .m5 = .ok w5res) :=
  c5_optimizer_max_first w5bars .m5 w5res (by with_unfolding_all decide)

/-! ## Claims C2 and C6: gating of BUY submissions in the live loop -/

namespace BitFlowBot

/-- The management branch never submits a BUY. -/
lemma tradeDecisionManage_no_buy (inp : TickInput) (position : Option Position) :
    (tradeDecisionManage inp position).2.buySubmitted = false := by
  rcases position with _ | p
  · rfl
  · simp only [tradeDecisionManage]
    split
    · split <;> rfl
    · rfl

/-- When the volatility-filter condition holds, the armed tick does
nothing: no order is submitted and the position is unchanged. -/
lemma tradeDecision_highVolatility_eq (cfg : BotConfig) (priceHistory : List ℚ)
    (inp : TickInput) (prevLocal rel : PriceVsMA) (position : Option Position)
    (hg : (decide (maxVolatilityThreshold cfg.timeframe < cfg.volatility) &&
      (decide (cfg.timeframe = Timeframe.m1) || decide (cfg.timeframe = Timeframe.m5))) = true) :
    tradeDecision cfg priceHistory inp prevLocal rel position = (position, ⟨false, false⟩) := by
  unfold tradeDecision
  simp only [hg, if_true]

/-- When the volatility filter trips on a 1m or 5m timeframe, a tick
submits no BUY whatever its state (the skip branch of the loop). -/
lemma tradeDecision_highVolatility (cfg : BotConfig) (priceHistory : List ℚ) (inp : TickInput)
    (prevLocal rel : PriceVsMA) (position : Option Position)
    (htf : cfg.timeframe = .m1 ∨ cfg.timeframe = .m5)
    (hvol : maxVolatilityThreshold cfg.timeframe < cfg.volatility) :
    (tradeDecision cfg priceHistory inp prevLocal rel position).2.buySubmitted = false := by
  have hg : (decide (maxVolatilityThreshold cfg.timeframe < cfg.volatility) &&
      (decide (cfg.timeframe = Timeframe.m1) || decide (cfg.timeframe = Timeframe.m5))) = true := by
    rw [Bool.and_eq_true]
    refine ⟨decide_eq_true hvol, ?_⟩
    rw [Bool.or_eq_true]
    rcases htf with h | h
    · exact Or.inl (decide_eq_true h)
    · exact Or.inr (decide_eq_true h)
  rw [tradeDecision_highVolatility_eq cfg priceHistory inp prevLocal rel position hg]

/-- A BUY is submitted by an armed tick only when the tracked relation is
`below`, the fresh relation is `above`, and no position is open (the
`signal.action === 'BUY' && !position && crossedAbove` guard). -/
lemma tradeDecision_buy (cfg : BotConfig) (priceHistory : List ℚ) (inp : TickInput)
    (prevLocal rel : PriceVsMA) (position : Option Position)
    (h : (tradeDecision cfg priceHistory inp prevLocal rel position).2.buySubmitted = true) :
    prevLocal = .below ∧ rel = .above ∧ position = none := by
  by_cases h1 : (decide (maxVolatilityThreshold cfg.timeframe < cfg.volatility) &&
      (decide (cfg.timeframe = Timeframe.m1) || decide (cfg.timeframe = Timeframe.m5))) = true
  · rw [tradeDecision_highVolatility_eq cfg priceHistory inp prevLocal rel position h1] at h
    simp at h
  · have h1f : (decide (maxVolatilityThreshold cfg.timeframe < cfg.volatility) &&
        (decide (cfg.timeframe = Timeframe.m1) || decide (cfg.timeframe = Timeframe.m5))) =
        false := by
      rwa [Bool.not_eq_true] at h1
    by_cases h2 : (decide ((StrategyOptimizer.calculateSignals priceHistory cfg.strategyType
          cfg.strategyLength).action = StrategyOptimizer.SignalAction.BUY) &&
        position.isNone &&
        (decide (prevLocal = PriceVsMA.below) && decide (rel = PriceVsMA.above))) = true
    · rw [Bool.and_eq_true, Bool.and_eq_true] at h2
      obtain ⟨⟨_, hnone⟩, hcross⟩ := h2
      rw [Bool.and_eq_true, decide_eq_true_eq, decide_eq_true_eq] at hcross
      exact ⟨hcross.1, hcross.2, Option.isNone_iff_eq_none.mp hnone⟩
    · have h2f : (decide ((StrategyOptimizer.calculateSignals priceHistory cfg.strategyType
            cfg.strategyLength).action = StrategyOptimizer.SignalAction.BUY) &&
          position.isNone &&
          (decide (prevLocal = PriceVsMA.below) && decide (rel = PriceVsMA.above))) = false := by
        rwa [Bool.not_eq_true] at h2
      have heval : tradeDecision cfg priceHistory inp prevLocal rel position =
          tradeDecisionManage inp position := by
        unfold tradeDecision
        simp only [h1f, h2f, Bool.false_eq_true, if_false]
      rw [heval, tradeDecisionManage_no_buy] at h
      exact absurd h (by simp)

/-- Invariant of the loop: the initialization countdown reaches zero only
together with the completion flag. -/
lemma reachable_ticks_complete (cfg : BotConfig) (s : BotState) (h : Reachable cfg s) :
    s.initializationWaitTicks = 0 → s.initializationComplete = true := by
  induction h with
  | init =>
    intro h0
    simp [initState] at h0
  | tick s inp hr ih =>
    rcases hprev : s.previousPriceVsMA with _ | prev0
    · simp only [step, hprev]
      exact ih
    · by_cases ht : 0 < s.initializationWaitTicks
      · by_cases ht2 : 0 < s.initializationWaitTicks - 1
        · simp only [step, hprev, if_pos ht, if_pos ht2]
          intro h0
          omega
        · simp only [step, hprev, if_pos ht, if_neg ht2]
          intro _
          trivial
      · simp only [step, hprev, if_neg ht]
        exact ih

/-- Any state produced by running the loop over a list of inputs is
reachable. -/
lemma reachable_runBot (cfg : BotConfig) (inputs : List TickInput) :
    Reachable cfg (runBot cfg inputs) := by
  have hgen : ∀ (l : List TickInput) (s : BotState), Reachable cfg s →
      Reachable cfg (l.foldl (fun s inp => (step cfg s inp).1) s) := by
    intro l
    induction l with
    | nil => intro s hs; exact hs
    | cons i is ih => intro s hs; exact ih _ (Reachable.tick s i hs)
  exact hgen inputs _ Reachable.init

end BitFlowBot

open BitFlowBot in
/-- **C2**: in every reachable state of the trading loop, a tick submits a
BUY only when initialization is complete (the countdown is at zero), the
relation recorded from the previous tick is `below`, the fresh price is
`above` the fresh MA, and no position is open.  In particular no BUY is
submitted while initialization ticks remain, or when the recorded relation
is `above` or `at`. -/
theorem c2_buy_gating (cfg : BitFlowBot.BotConfig) (s : BitFlowBot.BotState)
    (inp : BitFlowBot.TickInput)
    (hreach : BitFlowBot.Reachable cfg s)
    (hbuy : (BitFlowBot.step cfg s inp).2.buySubmitted = true) :
    s.initializationComplete = true ∧ s.initializationWaitTicks = 0 ∧
      s.previousPriceVsMA = some .below ∧
      BitFlowBot.relOf inp.currentPrice
        (BitFlowBot.calculateCurrentMA cfg
          (BitFlowBot.pushPrice s.priceHistory inp.currentPrice)) = .above ∧
      s.position = none := by
  rcases hprev : s.previousPriceVsMA with _ | prev0
  · simp only [BitFlowBot.step, hprev] at hbuy
    exact absurd hbuy (by simp)
  · by_cases ht : 0 < s.initializationWaitTicks
    · by_cases ht2 : 0 < s.initializationWaitTicks - 1
      · simp only [BitFlowBot.step, hprev, if_pos ht, if_pos ht2] at hbuy
        exact absurd hbuy (by simp)
      · simp only [BitFlowBot.step, hprev, if_pos ht, if_neg ht2] at hbuy
        obtain ⟨ha, hb, _⟩ := tradeDecision_buy _ _ _ _ _ _ hbuy
        exact absurd (ha.symm.trans hb) (by simp)
    · simp only [BitFlowBot.step, hprev, if_neg ht] at hbuy
      obtain ⟨ha, hb, hpos⟩ := tradeDecision_buy _ _ _ _ _ _ hbuy
      have hticks : s.initializationWaitTicks = 0 := by omega
      refine ⟨reachable_ticks_complete cfg s hreach hticks, hticks, ?_, hb, hpos⟩
      rw [ha]

/-- **C6 (amended)**: on the 1m and 5m timeframes, when the trailing
volatility exceeds the timeframe threshold (5% for 1m, 3% for 5m), no tick
ever submits a BUY — the otherwise-eligible crossover signal is skipped.
(The source applies the filter only to `'1m' || '5m'`; on 15m the BUY
proceeds even above the 2% threshold — see `c6_counterexample_15m`.) -/
theorem c6_volatility_filter_amended (cfg : BitFlowBot.BotConfig) (s : BitFlowBot.BotState)
    (inp : BitFlowBot.TickInput)
    (htf : cfg.timeframe = .m1 ∨ cfg.timeframe = .m5)
    (hvol : BitFlowBot.maxVolatilityThreshold cfg.timeframe < cfg.volatility) :
    (BitFlowBot.step cfg s inp).2.buySubmitted = false := by
  have hdec : ∀ (ph : List ℚ) (prevLocal rel : BitFlowBot.PriceVsMA)
      (pos : Option BitFlowBot.Position),
      (BitFlowBot.tradeDecision cfg ph inp prevLocal rel pos).2.buySubmitted = false :=
    fun ph prevLocal rel pos =>
      BitFlowBot.tradeDecision_highVolatility cfg ph inp prevLocal rel pos htf hvol
  rcases hprev : s.previousPriceVsMA with _ | prev0
  · simp only [BitFlowBot.step, hprev]
  · by_cases ht : 0 < s.initializationWaitTicks
    · by_cases ht2 : 0 < s.initializationWaitTicks - 1
      · simp only [BitFlowBot.step, hprev, if_pos ht, if_pos ht2]
      · simp only [BitFlowBot.step, hprev, if_pos ht, if_neg ht2]
        exact hdec _ _ _ _
    · simp only [BitFlowBot.step, hprev, if_neg ht]
      exact hdec _ _ _ _

/-- A tick input whose order submissions succeed. -/
def tk (p : ℚ) : BitFlowBot.TickInput := ⟨p, true, true⟩

/-- The 15m loop configuration of the C6 counterexample: strategy SMA(5),
manual risk mode, and historical bars with closes `100, 106, 106`, whose
trailing return variance is exactly `0.0009`, so the source's
`calculateVolatility` yields exactly `0.03 > 0.02`. -/
def c6cfg : BitFlowBot.BotConfig :=
  { strategyType := .SMA
    strategyLength := 5
    timeframe := .m15
    historicalData := [⟨100, 100, 100⟩, ⟨106, 106, 106⟩, ⟨106, 106, 106⟩]
    volatility := 0.03
    useMLRisk := false
    stopLossPercentCfg := 1.5
    riskRewardCfg := 2.0
    accountInfo := ⟨10000, 20000⟩ }

/-- The embedded `c6cfg.volatility` is honest: its square is exactly the
variance the source takes the square root of. -/
lemma c6cfg_volatility_consistent :
    c6cfg.volatility ^ 2 =
      MLRiskManager.calculateVolatilitySq
        (c6cfg.historicalData.drop (c6cfg.historicalData.length - 50)) := by
  show (0.03 : ℚ) ^ 2 = MLRiskManager.calculateVolatilitySq
      ([⟨100, 100, 100⟩, ⟨106, 106, 106⟩, ⟨106, 106, 106⟩] : List Bar)
  norm_num [MLRiskManager.calculateVolatilitySq, List.zipWith, List.sum_cons,
    List.sum_nil, List.map]

/-- Twelve preparation ticks: descending prices keep the fresh price below
the SMA, so after the 10-tick countdown the recorded relation is `below`. -/
def c6prep : List BitFlowBot.TickInput :=
  [tk 99, tk 98, tk 97, tk 96, tk 95, tk 94, tk 93, tk 92, tk 91, tk 90, tk 89, tk 88]

set_option maxRecDepth 3000 in
/-- **C6 counterexample**: on the 15m timeframe with trailing volatility
`0.03`, strictly above the 15m threshold `0.02`, an otherwise-eligible BUY
crossover is *not* skipped: the reachable armed state `runBot c6cfg c6prep`
submits a BUY on the next tick.  The source's filter fires only for
`'1m' || '5m'`. -/
theorem c6_counterexample_15m :
    c6cfg.timeframe = .m15 ∧
      BitFlowBot.maxVolatilityThreshold c6cfg.timeframe < c6cfg.volatility ∧
      (BitFlowBot.step c6cfg (BitFlowBot.runBot c6cfg c6prep) (tk 200)).2.buySubmitted = true := by
  refine ⟨rfl, by norm_num [BitFlowBot.maxVolatilityThreshold, c6cfg], ?_⟩
  with_unfolding_all decide

/-- The 1m loop configuration of the C6 witness: volatility `0.06` exceeds
the 1m threshold `0.05`. -/
def c6wcfg : BitFlowBot.BotConfig :=
  { strategyType := .SMA
    strategyLength := 5
    timeframe := .m1
    historicalData := [⟨100, 100, 100⟩, ⟨112, 112, 112⟩, ⟨112, 112, 112⟩]
    volatility := 0.06
    useMLRisk := false
    stopLossPercentCfg := 1.5
    riskRewardCfg := 2.0
    accountInfo := ⟨10000, 20000⟩ }

set_option maxRecDepth 3000 in
/-- Witness for C6 (amended): with 1m volatility above threshold, the tick
that would otherwise buy submits nothing. -/
theorem c6_volatility_filter_amended_witness :
    (BitFlowBot.step c6wcfg (BitFlowBot.runBot c6wcfg c6prep) (tk 200)).2.buySubmitted = false :=
  c6_volatility_filter_amended c6wcfg (BitFlowBot.runBot c6wcfg c6prep) (tk 200)
    (Or.inl rfl) (by norm_num [BitFlowBot.maxVolatilityThreshold, c6wcfg])

/-- The 5m loop configuration of the C2 witness: constant historical closes
give zero volatility, so the filter does not interfere. -/
def c2cfg : BitFlowBot.BotConfig :=
  { strategyType := .SMA
    strategyLength := 5
    timeframe := .m5
    historicalData := [⟨100, 100, 100⟩, ⟨100, 100, 100⟩, ⟨100, 100, 100⟩]
    volatility := 0
    useMLRisk := false
    stopLossPercentCfg := 1.5
    riskRewardCfg := 2.0
    accountInfo := ⟨10000, 20000⟩ }

set_option maxRecDepth 3000 in
/-- Witness for C2: a concrete reachable state of a 13-tick run in which
the next tick submits a BUY, so that state satisfies all the gating
conclusions. -/
theorem c2_buy_gating_witness :
    (BitFlowBot.runBot c2cfg c6prep).initializationComplete = true ∧
      (BitFlowBot.runBot c2cfg c6prep).initializationWaitTicks = 0 ∧
      (BitFlowBot.runBot c2cfg c6prep).previousPriceVsMA = some .below ∧
      BitFlowBot.relOf (tk 200).currentPrice
        (BitFlowBot.calculateCurrentMA c2cfg
          (BitFlowBot.pushPrice (BitFlowBot.runBot c2cfg c6prep).priceHistory
            (tk 200).currentPrice)) = .above ∧
      (BitFlowBot.runBot c2cfg c6prep).position = none :=
  c2_buy_gating c2cfg (BitFlowBot.runBot c2cfg c6prep) (tk 200)
    (BitFlowBot.reachable_runBot c2cfg c6prep) (by with_unfolding_all decide)

/-! ## Claim C8: insufficient data yields an invalid HOLD -/

/-- **C8**: for every price array with fewer than `maLength + 2` entries,
`calculateSignals` returns action `HOLD` with `valid = false` and the
descriptive insufficient-data reason; the embedded function is total, so no
exception reaches the caller. -/
theorem c8_insufficient_data_hold (prices : List ℚ) (maType : MAType) (maLength : Nat)
    (h : prices.length < maLength + 2) :
    StrategyOptimizer.calculateSignals prices maType maLength =
      { action := .HOLD
        confidence := 0
        reason := "Insufficient data: " ++ toString prices.length ++ " < " ++
          toString (maLength + 2)
        valid := false
        crossover := none } := by
  unfold StrategyOptimizer.calculateSignals
  rw [if_pos h]
  rfl

/-- Witness for C8: two prices against a length-5 MA. -/
theorem c8_insufficient_data_hold_witness :
    StrategyOptimizer.calculateSignals [1, 2] .SMA 5 =
      { action := .HOLD
        confidence := 0
        reason := "Insufficient data: " ++ toString ([(1 : ℚ), 2].length) ++ " < " ++
          toString (5 + 2)
        valid := false
        crossover := none } :=
  c8_insufficient_data_hold [1, 2] .SMA 5 (by decide)
